import Mathlib

/-!
Shallow embedding of the MultiArena polymorphic memory resources
(`include/MultiArena/MultiArena.h`) and verification of the claims
about them.

Pointers (`void*`, `uintptr_t`) are modelled as natural numbers with
explicit reduction modulo `2^64` wherever the C++ performs `uintptr_t`
arithmetic that can wrap.  `SizeType = uint32_t` quantities are modelled
as naturals with explicit reduction modulo `2^32` wherever the C++
narrowing or increment/decrement can wrap.  Arrays (`std::array`,
`std::pmr::vector`) are modelled as `List Nat` with `List.getD`/`List.set`
for indexed access.  The build is the default one: `exceptionsEnabled = true`;
a thrown exception is modelled as a distinguished outcome value, with the
state in which the throw happens (the C++ mutations performed before the
`throw` are kept, exactly as in the source).
-/

namespace MultiArena

/-- `2^32`, the modulus of `SizeType = uint32_t`. -/
def W32 : Nat := 4294967296

/-- `2^64`, the modulus of `uintptr_t` on the 64-bit target. -/
def W64 : Nat := 18446744073709551616

/-- The construction-time geometry of a pool: the number of arenas
(`numArenas()` / `NUM_ARENAS`), the size of one arena in bytes
(`arenaSize()` / `ARENA_SIZE`) and the address of the first byte of the
backing storage (`_arenaData.data()`). These are fixed for the lifetime
of the resource. -/
structure Geom where
  numArenas : Nat
  arenaSize : Nat
  base : Nat
deriving DecidableEq, Repr

/-- The geometry constraints the source enforces or relies on:
at least one arena (`static_assert(NUM_ARENAS > 0)` / `assert(numArenas > 0)`),
arena size a positive multiple of `alignof(std::max_align_t) = 16`
(`static_assert(ARENA_SIZE % alignof(std::max_align_t) == 0)`),
storage aligned at least to a cache line (64 bytes, `alignas(...)`, of
which only 16-alignment is used here), total pool size at most `2^32`
bytes (so that in-pool byte offsets survive the `SizeType` cast in
`do_deallocate`), arena size representable in `SizeType`, and the whole
storage residing inside the 64-bit address space. -/
structure GeomOK (g : Geom) : Prop where
  numArenas_pos : 0 < g.numArenas
  arenaSize_pos : 0 < g.arenaSize
  arenaSize_align : g.arenaSize % 16 = 0
  arenaSize_lt : g.arenaSize < W32
  base_align : g.base % 16 = 0
  pool_fits32 : g.numArenas * g.arenaSize ≤ W32
  addr_fits : g.base + g.numArenas * g.arenaSize < W64

instance (g : Geom) : Decidable (GeomOK g) :=
  decidable_of_iff
    (0 < g.numArenas ∧ 0 < g.arenaSize ∧ g.arenaSize % 16 = 0 ∧
      g.arenaSize < W32 ∧ g.base % 16 = 0 ∧
      g.numArenas * g.arenaSize ≤ W32 ∧
      g.base + g.numArenas * g.arenaSize < W64)
    ⟨fun ⟨a, b, c, d, e, f, h⟩ => ⟨a, b, c, d, e, f, h⟩,
     fun ⟨a, b, c, d, e, f, h⟩ => ⟨a, b, c, d, e, f, h⟩⟩

/-! ## The unsynchronized engine (`UnsynchronizedArenaResourceBase`) -/

/-- Mutable state of `UnsynchronizedArenaResourceBase` and its derived
storage: `_data` (bump pointer), `_bytesLeft`, `_activeArenaId`,
`_freeListHead`, `_freeList` and `_numAllocationsInArena`. -/
structure UState where
  data : Nat
  bytesLeft : Nat
  activeArenaId : Nat
  freeListHead : Nat
  freeList : List Nat
  counts : List Nat
deriving DecidableEq, Repr

/-- `reserveNextArena` after its `_freeListHead == 0` test has passed:
pop the top of the free list, activate that arena, reset `_bytesLeft`
to the arena size and point `_data` one past the last byte of the arena
(`_arenaData.data() + arenaSize * (id + 1)`).  The `_freeListHead == 0`
early-`false` return is modelled at each call site, mirroring the
short-circuit in the source. -/
def reserveArena (g : Geom) (s : UState) : UState :=
  let h := s.freeListHead - 1
  let id := s.freeList.getD h 0
  { s with freeListHead := h
           bytesLeft := g.arenaSize
           activeArenaId := id
           data := (g.base + g.arenaSize * (id + 1)) % W64 }

/-- `resetActiveArena`: re-point the bump pointer to the upper bound of
the active arena, restore `_bytesLeft = arenaSize` and zero the arena's
allocation counter. -/
def resetActiveArena (g : Geom) (s : UState) : UState :=
  { s with bytesLeft := g.arenaSize
           data := (g.base + g.arenaSize * (s.activeArenaId + 1)) % W64
           counts := s.counts.set s.activeArenaId 0 }

/-- `releaseArena`: push the arena id onto the free list and zero its
allocation counter. -/
def releaseArena (g : Geom) (s : UState) (arenaId : Nat) : UState :=
  { s with freeList := s.freeList.set s.freeListHead arenaId
           freeListHead := s.freeListHead + 1
           counts := s.counts.set arenaId 0 }

/-- The tentative result `ptrAsInteger -= bytes` of `do_allocate_details`:
a 64-bit wrapping `uintptr_t` subtraction. -/
def allocPtr (s : UState) (bytes : Nat) : Nat :=
  (s.data + (W64 - bytes % W64)) % W64

/-- `SizeType alignmentOffset = ptrAsInteger & (alignment - 1)`:
a 64-bit mask narrowed to `uint32_t`. -/
def allocOff (s : UState) (bytes alignment : Nat) : Nat :=
  (allocPtr s bytes &&& (alignment - 1)) % W32

/-- `SizeType numBytesNeeded = SizeType(bytes) + alignmentOffset`:
`uint32_t` arithmetic, wrapping modulo `2^32`. -/
def allocNeeded (s : UState) (bytes alignment : Nat) : Nat :=
  (bytes % W32 + allocOff s bytes alignment) % W32

/-- The recursion of `do_allocate_details`, made structural on a fuel
argument that the wrapper instantiates with `_freeListHead` — the exact
measure by which the C++ recursion terminates (each recursive call
happens after `reserveNextArena()` has decremented `_freeListHead`, so
fuel tracks it precisely and the `0`-fuel fallback is unreachable).
`ptrAsInteger -= alignmentOffset` cannot wrap because the mask result
is at most `ptrAsInteger`, so plain subtraction is exact there. -/
def do_allocate_go (g : Geom) (s : UState) (bytes alignment fuel : Nat) :
    Option Nat × UState :=
  if allocNeeded s bytes alignment > s.bytesLeft then
    if bytes ≤ g.arenaSize then
      if s.freeListHead = 0 then (none, s)
      else
        match fuel with
        | 0 => (none, s)
        | fuel + 1 => do_allocate_go g (reserveArena g s) bytes alignment
            fuel
    else (none, s)
  else
    (some (allocPtr s bytes - allocOff s bytes alignment),
      { s with data := allocPtr s bytes - allocOff s bytes alignment
               bytesLeft := s.bytesLeft - allocNeeded s bytes alignment
               counts := s.counts.set s.activeArenaId
                 ((s.counts.getD s.activeArenaId 0 + 1) % W32) })

/-- `UnsynchronizedArenaResourceBase::do_allocate_details`.  The
recursion mirrors `reserveNextArena()`'s boolean result: with the free
list empty nothing changes and `nullptr` comes back. -/
def do_allocate_details (g : Geom) (s : UState) (bytes alignment : Nat) :
    Option Nat × UState :=
  do_allocate_go g s bytes alignment s.freeListHead

/-- Result of a `do_allocate` call on the unsynchronized engine, with
the build's `exceptionsEnabled = true`: a returned non-null pointer, the
null return for a zero-byte request, or one of the two thrown
`std::bad_alloc` exceptions with their payloads. -/
inductive AllocOutcome where
  | success (p : Nat)
  | nullBytes0
  | tooLarge (bytesNeeded bytesAvailable : Nat)
  | exhausted (numArenas : Nat)
deriving DecidableEq, Repr

/-- `UnsynchronizedArenaResourceBase::do_allocate`: zero bytes returns
`nullptr` at once; otherwise run `do_allocate_details` and, on a null
result, throw `AllocateTooLargeBlock` when the request exceeds the arena
size and `OutOfFreeArenas` otherwise.  State changes made by
`do_allocate_details` before the failure are kept, as in the source. -/
def do_allocate (g : Geom) (s : UState) (bytes alignment : Nat) :
    AllocOutcome × UState :=
  if bytes = 0 then (.nullBytes0, s)
  else
    match do_allocate_details g s bytes alignment with
    | (some p, s1) => (.success p, s1)
    | (none, s1) =>
      if bytes > g.arenaSize then (.tooLarge bytes g.arenaSize, s1)
      else (.exhausted g.numArenas, s1)

/-- The arena id `do_deallocate` computes from a pointer:
`SizeType(ptrAsInteger - dataAsInteger) / arenaSize` — a 64-bit wrapping
subtraction narrowed to `uint32_t` and then divided by the arena size. -/
def deallocArenaId (g : Geom) (p : Nat) : Nat :=
  (((p + (W64 - g.base % W64)) % W64) % W32) / g.arenaSize

/-- `UnsynchronizedArenaResourceBase::do_deallocate`.  `none` models the
thrown `ArenaMemoryResourceCorruption`.  Otherwise the arena's counter is
decremented (a wrapping `uint32_t` `--`), and when it reaches zero the
arena is reset in place (if active) or pushed back onto the free list. -/
def do_deallocate (g : Geom) (s : UState) (p : Nat) : Option UState :=
  let arenaId := deallocArenaId g p
  if g.numArenas ≤ arenaId then none
  else
    let numAllocs := (s.counts.getD arenaId 0 + (W32 - 1)) % W32
    let s1 := { s with counts := s.counts.set arenaId numAllocs }
    some (if numAllocs = 0 then
            if arenaId = s1.activeArenaId then resetActiveArena g s1
            else releaseArena g s1 arenaId
          else s1)

/-- The constructor's `initializeArenas`: free list filled with
`numArenas - 1 - i`, all counters zeroed, `_freeListHead = numArenas`,
then `reserveNextArena()` activates arena `0`. -/
def initState (g : Geom) : UState :=
  reserveArena g
    { data := 0
      bytesLeft := 0
      activeArenaId := 0
      freeListHead := g.numArenas
      freeList := (List.range g.numArenas).map (fun i => g.numArenas - 1 - i)
      counts := List.replicate g.numArenas 0 }

/-- `numberOfAllocations()`: the sum over all arenas of
`_numAllocationsInArena` (the spec calls this `liveAllocations()`). -/
def numberOfAllocations (g : Geom) (s : UState) : Nat :=
  ((List.range g.numArenas).map (fun i => s.counts.getD i 0)).sum

/-- `numberOfBusyArenas()` (the spec calls this `busyArenas()`):
`numArenas() - _freeListHead`, corrected to `0` when that count is `1`
but the active arena holds no allocations. -/
def numberOfBusyArenas (g : Geom) (s : UState) : Nat :=
  let result := g.numArenas - s.freeListHead
  if result = 1 ∧ s.counts.getD s.activeArenaId 0 = 0 then 0 else result

/-! ## Consumer traces for the unsynchronized engine

A consumer drives the resource through a sequence of `allocate` and
`deallocate` calls.  A deallocation of a proper consumer refers to a
pointer previously returned and still live; the harness therefore
addresses deallocations by position in the list of currently live
pointers (newest first), which makes every trace well-formed by
construction.  Ghost data (the live-pointer list and the two call
counters) is bookkeeping of the harness, not of the modelled code. -/

/-- One consumer call. -/
inductive Op where
  | alloc (bytes alignment : Nat)
  | dealloc (idx : Nat)
deriving DecidableEq, Repr

/-- Engine state together with harness ghost data: the list of live
pointers (newest first), the number of successful (non-null) allocations
and the number of deallocations performed. -/
structure Trace where
  st : UState
  live : List Nat
  nSuccess : Nat
  nDealloc : Nat
deriving DecidableEq, Repr

/-- Run one consumer call.  An `alloc` is passed straight to
`do_allocate`; on success the returned pointer becomes live.  A
`dealloc i` deallocates the `i`-th live pointer and retires it;
an out-of-range index is a no-op (the harness only issues proper
deallocations).  A corruption report for a live pointer cannot occur
(proved below); if it did, the harness would stop changing state. -/
def stepOp (g : Geom) (t : Trace) (op : Op) : Trace :=
  match op with
  | .alloc bytes alignment =>
    match do_allocate g t.st bytes alignment with
    | (.success p, s1) =>
      { t with st := s1, live := p :: t.live, nSuccess := t.nSuccess + 1 }
    | (_, s1) => { t with st := s1 }
  | .dealloc i =>
    match t.live.get? i with
    | some p =>
      match do_deallocate g t.st p with
      | some s1 =>
        { t with st := s1, live := t.live.eraseIdx i,
                 nDealloc := t.nDealloc + 1 }
      | none => t
    | none => t

/-- The freshly constructed resource with no live allocations. -/
def initTrace (g : Geom) : Trace :=
  { st := initState g, live := [], nSuccess := 0, nDealloc := 0 }

/-- Run a whole sequence of consumer calls from construction. -/
def runOps (g : Geom) (ops : List Op) : Trace :=
  ops.foldl (stepOp g) (initTrace g)

/-- The calls for which the engine documents defined behaviour at
`alignof(std::max_align_t) = 16` granularity: an allocation's alignment
is a power of two no larger than 16 (equivalently a divisor of 16) and
its byte count stays clear of the `SizeType` narrowing (`bytes + 16 ≤ 2^32`).
Deallocations are proper by harness construction. -/
def ValidOp : Op → Prop
  | .alloc bytes alignment => 0 < alignment ∧ alignment ∣ 16 ∧ bytes + 16 ≤ W32
  | .dealloc _ => True

instance : DecidablePred ValidOp := fun op => by
  cases op with
  | alloc b a => exact inferInstanceAs (Decidable (_ ∧ _ ∧ _))
  | dealloc i => exact inferInstanceAs (Decidable True)

/-- Repeat `deallocate(p)` a given number of times (a call that raises
`PoolCorrupted` leaves the state as it was). -/
def iterDealloc (g : Geom) (s : UState) (p : Nat) : Nat → UState
  | 0 => s
  | Nat.succ k =>
    match do_deallocate g (iterDealloc g s p k) p with
    | some s1 => s1
    | none => iterDealloc g s p k

/-! ## The synchronized engine (`SynchronizedArenaResourceBase`)

Modelled in its sequential projection: one call runs to completion
before the next starts (each claim settled against this model concerns
sequential behaviour; the concurrency claim C8 is out of scope of the
embedding).  The per-arena `std::atomic<SizeType>` counters are plain
`uint32_t` values here, `_data` and `_bytesReserved` are `uintptr_t`. -/

/-- Mutable state of `SynchronizedArenaResourceBase`: `_data` (ascending
bump pointer), `_bytesReserved`, `_activeArenaId`, `_freeListHead`,
`_freeList`, `_numAllocationsInArena` and `_numDeallocationsInArena`. -/
structure SState where
  data : Nat
  bytesReserved : Nat
  activeArenaId : Nat
  freeListHead : Nat
  freeList : List Nat
  allocs : List Nat
  deallocs : List Nat
deriving DecidableEq, Repr

/-- The synchronized `reserveNextArena` after its `_freeListHead == 0`
test: pop the free list, activate the arena, point `_data` at its first
byte and zero `_bytesReserved`. -/
def sReserveArena (g : Geom) (s : SState) : SState :=
  let h := s.freeListHead - 1
  let id := s.freeList.getD h 0
  { s with freeListHead := h
           activeArenaId := id
           data := (g.base + id * g.arenaSize) % W64
           bytesReserved := 0 }

/-- The synchronized `resetActiveArena`: re-point `_data` at the active
arena's first byte, zero `_bytesReserved` and both of its counters. -/
def sResetActiveArena (g : Geom) (s : SState) : SState :=
  { s with data := (g.base + s.activeArenaId * g.arenaSize) % W64
           bytesReserved := 0
           allocs := s.allocs.set s.activeArenaId 0
           deallocs := s.deallocs.set s.activeArenaId 0 }

/-- The synchronized `releaseArena`: push the arena onto the free list
and zero both of its counters. -/
def sReleaseArena (g : Geom) (s : SState) (arenaId : Nat) : SState :=
  { s with freeList := s.freeList.set s.freeListHead arenaId
           freeListHead := s.freeListHead + 1
           allocs := s.allocs.set arenaId 0
           deallocs := s.deallocs.set arenaId 0 }

/-- The recursion of the synchronized `do_allocate_details`, structural
on a fuel argument instantiated with `_freeListHead` by the wrapper (the
same termination measure as the C++ recursion; the `0`-fuel fallback is
unreachable). -/
def s_allocate_go (g : Geom) (s : SState) (bytes fuel : Nat) :
    Option Nat × SState :=
  if s.bytesReserved + bytes > g.arenaSize then
    if s.freeListHead = 0 then (none, s)
    else
      match fuel with
      | 0 => (none, s)
      | fuel + 1 => s_allocate_go g (sReserveArena g s) bytes fuel
  else
    (some s.data,
      { s with bytesReserved := s.bytesReserved + bytes
               data := (s.data + bytes) % W64
               allocs := s.allocs.set s.activeArenaId
                 ((s.allocs.getD s.activeArenaId 0 + 1) % W32) })

/-- `SynchronizedArenaResourceBase::do_allocate_details` (called with
the mutex held; `bytes` here is the already-rounded byte count, which
the caller has checked to be at most the arena size): if the request
does not fit in the active arena, tap the next free one, else commit by
returning the current `_data`, advancing it and bumping the arena's
allocation counter. -/
def s_allocate_details (g : Geom) (s : SState) (bytes : Nat) :
    Option Nat × SState :=
  s_allocate_go g s bytes s.freeListHead

/-- Result of a synchronized `do_allocate`.  Note that the source
returns `nullptr` for a too-large request *before* reaching the
exception-throwing code, so even with exceptions enabled no
`AllocateTooLargeBlock` is thrown by this engine; only `OutOfFreeArenas`
can be thrown. -/
inductive SyncOutcome where
  | success (p : Nat)
  | nullBytes0
  | nullTooLarge
  | exhausted (numArenas : Nat)
deriving DecidableEq, Repr

/-- `SynchronizedArenaResourceBase::do_allocate`: the caller's alignment
argument is ignored; the size is rounded up to a whole number of
`alignof(max_align_t) = 16`-byte bins; a rounded size larger than the
arena returns `nullptr` immediately; otherwise the bump is done under
the mutex.  (`bytes + binSize - 1` is `std::size_t` arithmetic, wrapping
modulo `2^64`.) -/
def s_do_allocate (g : Geom) (s : SState) (bytes : Nat) :
    SyncOutcome × SState :=
  if bytes = 0 then (.nullBytes0, s)
  else
    let binSize := 16
    let numBinsForData := ((bytes + binSize - 1) % W64) / binSize
    let numBytesNeeded := numBinsForData * binSize
    if numBytesNeeded > g.arenaSize then (.nullTooLarge, s)
    else
      match s_allocate_details g s numBytesNeeded with
      | (some p, s1) => (.success p, s1)
      | (none, s1) => (.exhausted g.numArenas, s1)

/-- `SynchronizedArenaResourceBase::do_deallocate` in its sequential
projection.  `none` models the thrown `ArenaMemoryResourceCorruption`.
The deallocation counter is bumped (wrapping `fetch_add`), and when it
catches up with the allocation counter the double-checked vacancy test
runs under the mutex and the arena is reset in place or released. -/
def s_do_deallocate (g : Geom) (s : SState) (p : Nat) : Option SState :=
  let arenaId := deallocArenaId g p
  if g.numArenas ≤ arenaId then none
  else
    let numDeallocs := (s.deallocs.getD arenaId 0 + 1) % W32
    let s1 := { s with deallocs := s.deallocs.set arenaId numDeallocs }
    let numAllocs := s1.allocs.getD arenaId 0
    some (if numAllocs = numDeallocs then
            if numAllocs = s1.allocs.getD arenaId 0 ∧
               numAllocs = s1.deallocs.getD arenaId 0 then
              if arenaId = s1.activeArenaId then sResetActiveArena g s1
              else sReleaseArena g s1 arenaId
            else s1
          else s1)

/-- The synchronized constructor's `initializeArenas`. -/
def sInitState (g : Geom) : SState :=
  sReserveArena g
    { data := 0
      bytesReserved := 0
      activeArenaId := 0
      freeListHead := g.numArenas
      freeList := (List.range g.numArenas).map (fun i => g.numArenas - 1 - i)
      allocs := List.replicate g.numArenas 0
      deallocs := List.replicate g.numArenas 0 }

/-- The synchronized `allocationsInArena`: live count of an arena is
`_numAllocationsInArena[arenaId] - _numDeallocationsInArena[arenaId]`
(a wrapping `uint32_t` subtraction). -/
def sAllocationsInArena (s : SState) (arenaId : Nat) : Nat :=
  (s.allocs.getD arenaId 0 + (W32 - s.deallocs.getD arenaId 0 % W32)) % W32

/-- The synchronized `numberOfAllocations()`. -/
def sNumberOfAllocations (g : Geom) (s : SState) : Nat :=
  ((List.range g.numArenas).map (fun i => sAllocationsInArena s i)).sum

/-- The synchronized `numberOfBusyArenas()`. -/
def sNumberOfBusyArenas (g : Geom) (s : SState) : Nat :=
  let result := g.numArenas - s.freeListHead
  if result = 1 ∧ sAllocationsInArena s s.activeArenaId = 0 then 0 else result

/-- One sequential consumer call against the synchronized engine. -/
inductive SOp where
  | alloc (bytes : Nat)
  | dealloc (idx : Nat)
deriving DecidableEq, Repr

/-- Synchronized engine state with harness ghost data, as in `Trace`. -/
structure STrace where
  st : SState
  live : List Nat
  nSuccess : Nat
  nDealloc : Nat
deriving DecidableEq, Repr

/-- Run one sequential call against the synchronized engine. -/
def sStepOp (g : Geom) (t : STrace) (op : SOp) : STrace :=
  match op with
  | .alloc bytes =>
    match s_do_allocate g t.st bytes with
    | (.success p, s1) =>
      { t with st := s1, live := p :: t.live, nSuccess := t.nSuccess + 1 }
    | (_, s1) => { t with st := s1 }
  | .dealloc i =>
    match t.live.get? i with
    | some p =>
      match s_do_deallocate g t.st p with
      | some s1 =>
        { t with st := s1, live := t.live.eraseIdx i,
                 nDealloc := t.nDealloc + 1 }
      | none => t
    | none => t

/-- The freshly constructed synchronized resource. -/
def sInitTrace (g : Geom) : STrace :=
  { st := sInitState g, live := [], nSuccess := 0, nDealloc := 0 }

/-- Run a sequence of sequential calls against the synchronized engine. -/
def sRunOps (g : Geom) (ops : List SOp) : STrace :=
  ops.foldl (sStepOp g) (sInitTrace g)

/-- Size constraint under which a synchronized allocation is free of
`std::size_t` wrap in the bin rounding. -/
def ValidSOp : SOp → Prop
  | .alloc bytes => bytes + 16 ≤ W64
  | .dealloc _ => True

instance : DecidablePred ValidSOp := fun op => by
  cases op with
  | alloc b => exact inferInstanceAs (Decidable (_ ≤ _))
  | dealloc i => exact inferInstanceAs (Decidable True)

/-! ## The statistics wrapper (`StatisticsArenaResource`)

`MapType = std::pmr::map<void*, SizeType>` is modelled as an association
list sorted strictly by key; the null pointer is the address `0`.
`HistogramType = std::pmr::map<SizeType, SizeType>` likewise. -/

/-- `_map[p] = bytes`: ordered insert-or-assign into the sorted
association list. -/
def mapAssign (m : List (Nat × Nat)) (k v : Nat) : List (Nat × Nat) :=
  match m with
  | [] => [(k, v)]
  | (k0, v0) :: rest =>
    if k < k0 then (k, v) :: (k0, v0) :: rest
    else if k = k0 then (k, v) :: rest
    else (k0, v0) :: mapAssign rest k v

/-- `_map.erase(p)`: remove the entry with the given key, returning the
number of entries erased (0 or 1) and the remaining list. -/
def mapErase (m : List (Nat × Nat)) (k : Nat) : Nat × List (Nat × Nat) :=
  match m with
  | [] => (0, [])
  | (k0, v0) :: rest =>
    if k = k0 then (1, rest)
    else
      let r := mapErase rest k
      (r.1, (k0, v0) :: r.2)

/-- `hist[size] += 1` for the histogram under construction: ordered
insert with counter increment. -/
def histInc (h : List (Nat × Nat)) (sz : Nat) : List (Nat × Nat) :=
  match h with
  | [] => [(sz, 1)]
  | (k, c) :: rest =>
    if sz < k then (sz, 1) :: (k, c) :: rest
    else if sz = k then (k, c + 1) :: rest
    else (k, c) :: histInc rest sz

/-- `StatisticsArenaResource::histogram()`: for each live allocation map
its size to the number of live allocations of that size. -/
def histogram (m : List (Nat × Nat)) : List (Nat × Nat) :=
  m.foldl (fun h kv => histInc h kv.2) []

/-- The loop of `percentile`: `while (accumulatedSum < upperLimit)
{ accumulatedSum += it->second; ++it; } return std::prev(it)->first;`.
`last` records the key `std::prev(it)` would name; it is `none` while
`it` still equals `hist.cbegin()`, in which case terminating the loop
dereferences `std::prev(hist.cbegin())` — undefined behaviour, modelled
by the `none` result. -/
def percentileLoop (hist : List (Nat × Nat)) (upperLimit accumulatedSum : Nat)
    (last : Option Nat) : Option Nat :=
  match hist with
  | [] => if accumulatedSum < upperLimit then none else last
  | (k, c) :: rest =>
    if accumulatedSum < upperLimit then
      percentileLoop rest upperLimit (accumulatedSum + c) (some k)
    else last

/-- `StatisticsArenaResource::percentile(pc)` over the live-allocation
map: clamp `pc` to `[0, 1]`, return 0 for `pc = 0` or an empty
histogram, otherwise truncate `pc * sum` to an integer
(`std::size_t upperLimit = pc * sum`) and walk the histogram.  `pc` is
modelled as a rational; for the dyadic arguments of interest
(`0`, `0.5`, `1`) and histogram totals below `2^52` the `double`
computation of the source is exact, so the models agree.  The `none`
result marks the undefined behaviour described at `percentileLoop`. -/
def percentile (m : List (Nat × Nat)) (pc : ℚ) : Option Nat :=
  let pc := max 0 (min 1 pc)
  if pc = 0 then some 0
  else
    let hist := histogram m
    let sum : Nat := (hist.map (fun kv => kv.2)).sum
    if sum = 0 then some 0
    else
      let upperLimit := (⌊pc * (sum : ℚ)⌋).toNat
      percentileLoop hist upperLimit 0 none

/-- `StatisticsArenaResource::bytesAllocated()`: the sum of the mapped
sizes of all live allocations. -/
def bytesAllocated (m : List (Nat × Nat)) : Nat :=
  (m.map (fun kv => kv.2)).sum

/-- State of `StatisticsArenaResource`: the wrapped unsynchronized
engine, the address-to-size map and the two high-water marks. -/
structure StatsState where
  st : UState
  map : List (Nat × Nat)
  maxBusyArenas : Nat
  maxNumberOfAllocations : Nat
deriving DecidableEq, Repr

/-- `StatisticsArenaResource::do_allocate`: call the base allocator,
then record `_map[p] = bytes` and refresh both high-water marks.  A
thrown `bad_alloc` propagates before the map is touched (but after any
state change the base call made); the `bytes == 0` path returns
`nullptr` *normally*, so the entry `(nullptr, 0)` is recorded. -/
def statsAllocate (g : Geom) (t : StatsState) (bytes alignment : Nat) :
    AllocOutcome × StatsState :=
  match do_allocate g t.st bytes alignment with
  | (.success p, s1) =>
    let m := mapAssign t.map p bytes
    (.success p,
      { st := s1, map := m
        maxBusyArenas := max t.maxBusyArenas (numberOfBusyArenas g s1)
        maxNumberOfAllocations := max t.maxNumberOfAllocations m.length })
  | (.nullBytes0, s1) =>
    let m := mapAssign t.map 0 bytes
    (.nullBytes0,
      { st := s1, map := m
        maxBusyArenas := max t.maxBusyArenas (numberOfBusyArenas g s1)
        maxNumberOfAllocations := max t.maxNumberOfAllocations m.length })
  | (r, s1) => (r, { t with st := s1 })

/-- `StatisticsArenaResource::do_deallocate`: erase the pointer from the
map — a missing entry throws (`none`) — then delegate to the base.  (A
base-level corruption throw is also `none`.) -/
def statsDeallocate (g : Geom) (t : StatsState) (p : Nat) :
    Option StatsState :=
  let r := mapErase t.map p
  if r.1 = 0 then none
  else
    match do_deallocate g t.st p with
    | some s1 => some { t with st := s1, map := r.2 }
    | none => none

/-- A freshly constructed `StatisticsArenaResource`. -/
def statsInit (g : Geom) : StatsState :=
  { st := initState g, map := [], maxBusyArenas := 0,
    maxNumberOfAllocations := 0 }

/-! ## The state invariant of the unsynchronized engine

`UInv g s L` relates the engine state `s` to the list `L` of currently
live pointers: it is established by construction and preserved by every
valid call (allocations at `alignof(max_align_t)`-compatible alignments,
deallocations of live pointers). -/

/-- The arena that contains an in-pool pointer. -/
def arenaOf (g : Geom) (p : Nat) : Nat := (p - g.base) / g.arenaSize

/-- The state invariant of the unsynchronized engine relative to the
live-pointer list `L`. -/
structure UInv (g : Geom) (s : UState) (L : List Nat) : Prop where
  counts_len : s.counts.length = g.numArenas
  flist_len : s.freeList.length = g.numArenas
  active_lt : s.activeArenaId < g.numArenas
  head_le : s.freeListHead ≤ g.numArenas
  bytesLeft_le : s.bytesLeft ≤ g.arenaSize
  data_low : g.base + g.arenaSize * s.activeArenaId + s.bytesLeft ≤ s.data
  data_high : s.data ≤ g.base + g.arenaSize * (s.activeArenaId + 1)
  free_lt : ∀ j < s.freeListHead, s.freeList.getD j 0 < g.numArenas
  free_nodup : (s.freeList.take s.freeListHead).Nodup
  active_notfree : s.activeArenaId ∉ s.freeList.take s.freeListHead
  counts_live : ∀ i < g.numArenas,
    s.counts.getD i 0 = L.countP (fun p => arenaOf g p == i)
  free_count0 : ∀ j < s.freeListHead,
    s.counts.getD (s.freeList.getD j 0) 0 = 0
  live_in : ∀ p ∈ L, g.base ≤ p ∧ p < g.base + g.numArenas * g.arenaSize
  busy_or : ∀ i < g.numArenas, i = s.activeArenaId ∨
    i ∈ s.freeList.take s.freeListHead ∨ 0 < s.counts.getD i 0
  active0_full : s.counts.getD s.activeArenaId 0 = 0 →
    s.bytesLeft = g.arenaSize
  count_active_le :
    s.counts.getD s.activeArenaId 0 + s.bytesLeft ≤ g.arenaSize
  counts_le : ∀ i < g.numArenas, s.counts.getD i 0 ≤ g.arenaSize

/-! ## The invariant along whole consumer traces -/

/-- Invariant of a harnessed trace: the engine state is invariant with
respect to the live list, and the ghost counters balance. -/
def TraceInv (g : Geom) (t : Trace) : Prop :=
  UInv g t.st t.live ∧ t.live.length + t.nDealloc = t.nSuccess

/-- The state invariant of the synchronized engine (in its sequential
projection) relative to the live-pointer list `L`.  The live count of
arena `i` is `allocs[i] - deallocs[i]`; both counters are zeroed
whenever the arena is (re-)activated or released. -/
structure SInv (g : Geom) (s : SState) (L : List Nat) : Prop where
  allocs_len : s.allocs.length = g.numArenas
  deallocs_len : s.deallocs.length = g.numArenas
  flist_len : s.freeList.length = g.numArenas
  active_lt : s.activeArenaId < g.numArenas
  head_le : s.freeListHead ≤ g.numArenas
  reserved_le : s.bytesReserved ≤ g.arenaSize
  reserved_align : s.bytesReserved % 16 = 0
  data_eq : s.data = g.base + s.activeArenaId * g.arenaSize +
    s.bytesReserved
  free_lt : ∀ j < s.freeListHead, s.freeList.getD j 0 < g.numArenas
  free_nodup : (s.freeList.take s.freeListHead).Nodup
  active_notfree : s.activeArenaId ∉ s.freeList.take s.freeListHead
  live_counts : ∀ i < g.numArenas, s.allocs.getD i 0 =
    s.deallocs.getD i 0 + L.countP (fun p => arenaOf g p == i)
  free_zero : ∀ j < s.freeListHead,
    s.allocs.getD (s.freeList.getD j 0) 0 = 0 ∧
    s.deallocs.getD (s.freeList.getD j 0) 0 = 0
  live_in : ∀ p ∈ L, g.base ≤ p ∧ p < g.base + g.numArenas * g.arenaSize
  busy_or : ∀ i < g.numArenas, i = s.activeArenaId ∨
    i ∈ s.freeList.take s.freeListHead ∨
    s.deallocs.getD i 0 < s.allocs.getD i 0
  active_vacant : s.allocs.getD s.activeArenaId 0 =
    s.deallocs.getD s.activeArenaId 0 → s.bytesReserved = 0
  alloc_active : 16 * s.allocs.getD s.activeArenaId 0 ≤ s.bytesReserved
  allocs_le : ∀ i < g.numArenas, 16 * s.allocs.getD i 0 ≤ g.arenaSize

/-- Invariant of a harnessed synchronized trace. -/
def STraceInv (g : Geom) (t : STrace) : Prop :=
  SInv g t.st t.live ∧ t.live.length + t.nDealloc = t.nSuccess

/-! ## Arithmetic and list helpers -/

/-- Masking with `2^k - 1` is reduction modulo `2^k`. -/
theorem and_two_pow_sub_one (x k : Nat) : x &&& (2 ^ k - 1) = x % 2 ^ k := by
  apply Nat.eq_of_testBit_eq
  intro i
  rw [Nat.testBit_and, Nat.testBit_mod_two_pow, Nat.testBit_two_pow_sub_one]
  cases Nat.testBit x i <;> simp [Bool.and_comm]

/-- The divisors of 16 are exactly the powers of two up to 16. -/
theorem dvd_sixteen_cases {a : Nat} (h : a ∣ 16) (h0 : 0 < a) :
    a = 1 ∨ a = 2 ∨ a = 4 ∨ a = 8 ∨ a = 16 := by
  have hle : a ≤ 16 := Nat.le_of_dvd (by norm_num) h
  interval_cases a <;> revert h <;> decide

/-- A divisor of 16 is `2^k` for some `k ≤ 4`. -/
theorem dvd_sixteen_pow {a : Nat} (h : a ∣ 16) (h0 : 0 < a) :
    ∃ k, k ≤ 4 ∧ a = 2 ^ k := by
  rcases dvd_sixteen_cases h h0 with h1 | h1 | h1 | h1 | h1 <;> subst h1
  · exact ⟨0, by omega, rfl⟩
  · exact ⟨1, by omega, rfl⟩
  · exact ⟨2, by omega, rfl⟩
  · exact ⟨3, by omega, rfl⟩
  · exact ⟨4, by omega, rfl⟩

/-- Wrapping `uintptr_t` subtraction is exact subtraction when the
subtrahend is no larger than the minuend and the minuend is in range. -/
theorem wrap_sub_exact {x b : Nat} (hb : b ≤ x) (hx : x < W64) :
    (x + (W64 - b % W64)) % W64 = x - b := by
  have hbW : b % W64 = b := Nat.mod_eq_of_lt (Nat.lt_of_le_of_lt hb hx)
  rw [hbW]
  have h1 : x + (W64 - b) = (x - b) + W64 := by
    have : b ≤ W64 := by omega
    omega
  rw [h1, Nat.add_mod_right, Nat.mod_eq_of_lt (by omega)]

/-- The wrapping `uint32_t` decrement `--c`, for `1 ≤ c < 2^32`, is the
exact decrement. -/
theorem wrap_dec_exact {c : Nat} (h1 : 1 ≤ c) (h2 : c < W32) :
    (c + (W32 - 1)) % W32 = c - 1 := by
  have h : c + (W32 - 1) = (c - 1) + W32 := by omega
  rw [h, Nat.add_mod_right, Nat.mod_eq_of_lt (by omega)]

/-- The wrapping `uint32_t` decrement of `0` lands at `2^32 - 1`. -/
theorem wrap_dec_zero : ((0 : Nat) + (W32 - 1)) % W32 = W32 - 1 := by decide

theorem getD_set_self {l : List Nat} {i : Nat} (v : Nat) (h : i < l.length) :
    (l.set i v).getD i 0 = v := by
  simp [List.getD_eq_getElem?_getD, List.getElem?_set_self, h]

theorem getD_set_ne {l : List Nat} {i j : Nat} (v : Nat) (h : i ≠ j) :
    (l.set i v).getD j 0 = l.getD j 0 := by
  simp [List.getD_eq_getElem?_getD, List.getElem?_set_ne h]

theorem take_set_of_le {l : List Nat} {i n : Nat} (v : Nat) (h : n ≤ i) :
    (l.set i v).take n = l.take n := by
  rw [List.set_take]
  apply List.set_eq_of_length_le
  simp
  omega

/-- `countP` after removing the element at a valid index. -/
theorem countP_eraseIdx {l : List Nat} {i : Nat} (f : Nat → Bool)
    (h : i < l.length) :
    (l.eraseIdx i).countP f + (if f (l.get ⟨i, h⟩) then 1 else 0) =
      l.countP f := by
  induction l generalizing i with
  | nil => simp at h
  | cons a t ih =>
    cases i with
    | zero =>
      simp only [List.eraseIdx_cons_zero, List.countP_cons, List.get_cons_zero]
      by_cases hfa : f a = true <;> simp [hfa]
    | succ n =>
      have hn : n < t.length := by simpa using h
      have := ih hn
      simp only [List.eraseIdx_cons_succ, List.countP_cons, List.get_cons_succ]
      split <;> omega

/-- Membership of an element of a valid index. -/
theorem get_mem_of_lt {l : List Nat} {i : Nat} (h : i < l.length) :
    l.get ⟨i, h⟩ ∈ l := by
  apply List.get_mem

/-- Removing an element that satisfies the predicate lowers `countP`
by one. -/
theorem countP_eraseIdx_true {l : List Nat} {i : Nat} {f : Nat → Bool}
    (h : i < l.length) (hf : f (l.get ⟨i, h⟩) = true) :
    (l.eraseIdx i).countP f + 1 = l.countP f := by
  have h1 := countP_eraseIdx f h
  rw [hf] at h1
  simpa using h1

/-- Removing an element that fails the predicate keeps `countP`. -/
theorem countP_eraseIdx_false {l : List Nat} {i : Nat} {f : Nat → Bool}
    (h : i < l.length) (hf : f (l.get ⟨i, h⟩) = false) :
    (l.eraseIdx i).countP f = l.countP f := by
  have h1 := countP_eraseIdx f h
  rw [hf] at h1
  simpa using h1

/-- A positive `countP` from a member that satisfies the predicate. -/
theorem countP_pos_of_mem {l : List Nat} {p : Nat} (f : Nat → Bool)
    (hp : p ∈ l) (hf : f p = true) : 0 < l.countP f := by
  rw [List.countP_pos_iff]
  exact ⟨p, hp, hf⟩

/-- Sum of an indicator over `List.range n` where the hit is in range. -/
theorem sum_indicator {n k : Nat} (h : k < n) :
    ((List.range n).map (fun i => if k = i then (1 : Nat) else 0)).sum = 1 := by
  induction n with
  | zero => omega
  | succ m ih =>
    rw [List.range_succ, List.map_append, List.sum_append]
    by_cases hk : k = m
    · subst hk
      have : ∀ i ∈ List.range k, (if k = i then (1 : Nat) else 0) = 0 := by
        intro i hi
        have : i < k := List.mem_range.mp hi
        simp
        omega
      rw [List.sum_eq_zero]
      · simp
      · intro x hx
        rw [List.mem_map] at hx
        obtain ⟨i, hi, rfl⟩ := hx
        exact this i hi
    · have hkm : k < m := by omega
      rw [ih hkm]
      simp [hk]

/-- Pointwise-equal functions give equal mapped sums over `range`. -/
theorem sum_map_range_congr {n : Nat} {f h : Nat → Nat}
    (he : ∀ i < n, f i = h i) :
    ((List.range n).map f).sum = ((List.range n).map h).sum := by
  apply congrArg
  apply List.map_congr_left
  intro i hi
  exact he i (List.mem_range.mp hi)

/-- Mapped sums over `range` add pointwise. -/
theorem sum_map_range_add {n : Nat} {f h : Nat → Nat} :
    ((List.range n).map (fun i => f i + h i)).sum =
      ((List.range n).map f).sum + ((List.range n).map h).sum := by
  induction n with
  | zero => simp
  | succ m ih =>
    rw [List.range_succ]
    simp only [List.map_append, List.sum_append, ih]
    simp
    omega


/-- An element taken from the free-list prefix is a free arena id. -/
theorem mem_take_getD (l : List Nat) {h j : Nat} (hl : h ≤ l.length)
    (hj : j < h) : l.getD j 0 ∈ l.take h := by
  have hjl : j < l.length := Nat.lt_of_lt_of_le hj hl
  have : l.getD j 0 = (l.take h).getD j 0 := by
    rw [List.getD_eq_getElem?_getD, List.getD_eq_getElem?_getD,
      List.getElem?_take]
    simp [hj]
  rw [this]
  have hlen : j < (l.take h).length := by
    rw [List.length_take]
    omega
  rw [List.getD_eq_getElem?_getD, List.getElem?_eq_getElem hlen]
  exact List.getElem_mem hlen

/-- The arena id of a pointer inside arena `i`'s byte range. -/
theorem arenaOf_eq {g : Geom} {p i : Nat} (hS : 0 < g.arenaSize)
    (h1 : g.base + g.arenaSize * i ≤ p)
    (h2 : p < g.base + g.arenaSize * (i + 1)) : arenaOf g p = i := by
  unfold arenaOf
  apply Nat.div_eq_of_lt_le
  · rw [Nat.mul_comm]
    omega
  · rw [Nat.mul_comm]
    omega

/-- An in-pool pointer has an in-range arena id. -/
theorem arenaOf_lt {g : Geom} {p : Nat} (hS : 0 < g.arenaSize)
    (h1 : g.base ≤ p) (h2 : p < g.base + g.numArenas * g.arenaSize) :
    arenaOf g p < g.numArenas := by
  unfold arenaOf
  apply Nat.div_lt_of_lt_mul
  rw [Nat.mul_comm]
  omega

/-- `deallocArenaId` agrees with the true arena id on in-pool pointers
(when the pool occupies at most `2^32` bytes). -/
theorem deallocArenaId_eq {g : Geom} {p : Nat} (hg : GeomOK g)
    (h1 : g.base ≤ p) (h2 : p < g.base + g.numArenas * g.arenaSize) :
    deallocArenaId g p = arenaOf g p := by
  unfold deallocArenaId arenaOf
  have hbW : g.base % W64 = g.base :=
    Nat.mod_eq_of_lt (by have := hg.addr_fits; omega)
  rw [hbW]
  have hpW : p < W64 := by have := hg.addr_fits; omega
  have hsub : (p + (W64 - g.base)) % W64 = p - g.base := by
    have h3 : p + (W64 - g.base) = (p - g.base) + W64 := by omega
    rw [h3, Nat.add_mod_right, Nat.mod_eq_of_lt (by omega)]
  rw [hsub, Nat.mod_eq_of_lt]
  have := hg.pool_fits32
  omega

theorem getD_range_map {n j : Nat} (f : Nat → Nat) (h : j < n) :
    ((List.range n).map f).getD j 0 = f j := by
  rw [List.getD_eq_getElem?_getD, List.getElem?_map, List.getElem?_range h]
  rfl

theorem getD_replicate {n i : Nat} (v : Nat) (h : i < n) :
    (List.replicate n v).getD i 0 = v := by
  rw [List.getD_eq_getElem?_getD, List.getElem?_replicate]
  simp [h]

/-- The freshly constructed resource satisfies the invariant with no
live allocations: arena `0` active, arenas `numArenas - 1, …, 1` free. -/
theorem uinv_init {g : Geom} (hg : GeomOK g) : UInv g (initState g) [] := by
  have hN := hg.numArenas_pos
  have hS := hg.arenaSize_pos
  have haddr := hg.addr_fits
  have hid : ((List.range g.numArenas).map
      (fun i => g.numArenas - 1 - i)).getD (g.numArenas - 1) 0 = 0 := by
    rw [getD_range_map _ (by omega)]
    omega
  have hflen : ((List.range g.numArenas).map
      (fun i => g.numArenas - 1 - i)).length = g.numArenas := by simp
  have hdata : (g.base + g.arenaSize * (0 + 1)) % W64 =
      g.base + g.arenaSize := by
    rw [Nat.mod_eq_of_lt] <;> [skip; skip] <;> nlinarith [hg.pool_fits32]
  have hstate : initState g =
      { data := g.base + g.arenaSize
        bytesLeft := g.arenaSize
        activeArenaId := 0
        freeListHead := g.numArenas - 1
        freeList := (List.range g.numArenas).map (fun i => g.numArenas - 1 - i)
        counts := List.replicate g.numArenas 0 } := by
    unfold initState reserveArena
    simp only [hid, hdata]
  rw [hstate]
  have hgetD : ∀ j < g.numArenas, ((List.range g.numArenas).map
      (fun i => g.numArenas - 1 - i)).getD j 0 = g.numArenas - 1 - j := by
    intro j hj
    exact getD_range_map _ hj
  have hnodupfull : ((List.range g.numArenas).map
      (fun i => g.numArenas - 1 - i)).Nodup := by
    apply List.Nodup.map_on
    · intro x hx y hy hxy
      rw [List.mem_range] at hx hy
      omega
    · exact List.nodup_range _
  refine ⟨?_, ?_, ?_, ?_, ?_, ?_, ?_, ?_, ?_, ?_, ?_, ?_, ?_, ?_, ?_, ?_, ?_⟩
  all_goals dsimp only
  · simp
  · simpa using hflen
  · exact hN
  · omega
  · omega
  · simp
  · omega
  · intro j hj
    rw [hgetD j (by omega)]
    omega
  · exact List.Sublist.nodup (List.take_sublist _ _) hnodupfull
  · intro hmem
    rw [List.mem_iff_get] at hmem
    obtain ⟨⟨j, hj⟩, hval⟩ := hmem
    have hjlen : j < g.numArenas - 1 := by
      have h2 := hj
      rw [List.length_take] at h2
      omega
    have hjfull : j < ((List.range g.numArenas).map
        (fun i => g.numArenas - 1 - i)).length := by
      rw [hflen]
      omega
    have hfull : ((List.range g.numArenas).map
        (fun i => g.numArenas - 1 - i)).getD j 0 = 0 := by
      rw [List.get_eq_getElem, List.getElem_take] at hval
      rw [List.getD_eq_getElem?_getD, List.getElem?_eq_getElem hjfull, hval]
      rfl
    rw [hgetD j (by omega)] at hfull
    omega
  · intro i hi
    rw [getD_replicate 0 hi]
    simp
  · intro j hj
    apply getD_replicate
    have := hgetD j (by omega)
    rw [this]
    omega
  · intro p hp
    simp at hp
  · intro i hi
    by_cases h0 : i = 0
    · left
      exact h0
    · right
      left
      have hj : g.numArenas - 1 - i < g.numArenas - 1 := by omega
      have := mem_take_getD ((List.range g.numArenas).map
        (fun i => g.numArenas - 1 - i)) (by omega) hj
      rw [hgetD _ (by omega)] at this
      have heq : g.numArenas - 1 - (g.numArenas - 1 - i) = i := by omega
      rw [heq] at this
      exact this
  · intro hc
    rfl
  · rw [getD_replicate 0 hN]
    omega
  · intro i hi
    rw [getD_replicate 0 hi]
    omega

/-! ## Behaviour of `do_allocate_details` on valid calls -/

/-- Unfolding: the commit branch. -/
theorem details_commit {g : Geom} {s : UState} {bytes alignment : Nat}
    (hfit : ¬ allocNeeded s bytes alignment > s.bytesLeft) :
    do_allocate_details g s bytes alignment =
      (some (allocPtr s bytes - allocOff s bytes alignment),
        { s with data := allocPtr s bytes - allocOff s bytes alignment
                 bytesLeft := s.bytesLeft - allocNeeded s bytes alignment
                 counts := s.counts.set s.activeArenaId
                   ((s.counts.getD s.activeArenaId 0 + 1) % W32) }) := by
  rw [do_allocate_details, do_allocate_go.eq_def, if_neg hfit]

/-- Unfolding: failure without touching the free list. -/
theorem details_fail {g : Geom} {s : UState} {bytes alignment : Nat}
    (hnofit : allocNeeded s bytes alignment > s.bytesLeft)
    (h : g.arenaSize < bytes ∨ s.freeListHead = 0) :
    do_allocate_details g s bytes alignment = (none, s) := by
  rw [do_allocate_details, do_allocate_go.eq_def, if_pos hnofit]
  rcases h with h | h
  · rw [if_neg (by omega)]
  · by_cases hb : bytes ≤ g.arenaSize
    · rw [if_pos hb, if_pos h]
    · rw [if_neg hb]

/-- Unfolding: the retry after reserving the next arena. -/
theorem details_retry {g : Geom} {s : UState} {bytes alignment : Nat}
    (hnofit : allocNeeded s bytes alignment > s.bytesLeft)
    (hb : bytes ≤ g.arenaSize) (h0 : s.freeListHead ≠ 0) :
    do_allocate_details g s bytes alignment =
      do_allocate_details g (reserveArena g s) bytes alignment := by
  obtain ⟨m, hm⟩ : ∃ m, s.freeListHead = m + 1 :=
    ⟨s.freeListHead - 1, by omega⟩
  rw [do_allocate_details, do_allocate_go.eq_def, if_pos hnofit,
    if_pos hb, if_neg h0, hm]
  dsimp only
  unfold do_allocate_details
  have h2 : (reserveArena g s).freeListHead = m := by
    simp [reserveArena]
    omega
  rw [h2]

/-- The `SizeType`-narrowed alignment offset is below the alignment for
the alignments of interest. -/
theorem allocOff_lt {s : UState} {bytes alignment : Nat}
    (ha0 : 0 < alignment) (ha : alignment ∣ 16) :
    allocOff s bytes alignment < alignment := by
  obtain ⟨k, hk4, rfl⟩ := dvd_sixteen_pow ha ha0
  unfold allocOff
  have h1 : allocPtr s bytes &&& (2 ^ k - 1) = allocPtr s bytes % 2 ^ k :=
    and_two_pow_sub_one _ k
  rw [h1]
  have h2 : allocPtr s bytes % 2 ^ k < 2 ^ k :=
    Nat.mod_lt _ (Nat.pos_pow_of_pos k (by omega))
  calc (allocPtr s bytes % 2 ^ k) % W32 ≤ allocPtr s bytes % 2 ^ k :=
        Nat.mod_le _ _
    _ < 2 ^ k := h2

/-- The alignment offset is the remainder of the tentative pointer
modulo the alignment. -/
theorem allocOff_eq_mod {s : UState} {bytes alignment : Nat}
    (ha0 : 0 < alignment) (ha : alignment ∣ 16) :
    allocOff s bytes alignment = allocPtr s bytes % alignment := by
  obtain ⟨k, hk4, rfl⟩ := dvd_sixteen_pow ha ha0
  unfold allocOff
  rw [and_two_pow_sub_one]
  apply Nat.mod_eq_of_lt
  have h2 : allocPtr s bytes % 2 ^ k < 2 ^ k :=
    Nat.mod_lt _ (Nat.pos_pow_of_pos k (by omega))
  have h3 : (2 : Nat) ^ k ≤ 2 ^ 4 := Nat.pow_le_pow_right (by omega) hk4
  have : (2 : Nat) ^ 4 < W32 := by decide
  omega

/-- `numBytesNeeded` does not wrap for byte counts clear of the
`SizeType` boundary. -/
theorem allocNeeded_eq {s : UState} {bytes alignment : Nat}
    (ha0 : 0 < alignment) (ha : alignment ∣ 16) (hbw : bytes + 16 ≤ W32) :
    allocNeeded s bytes alignment = bytes + allocOff s bytes alignment := by
  unfold allocNeeded
  have hoff : allocOff s bytes alignment < alignment :=
    allocOff_lt ha0 ha
  have ha16 : alignment ≤ 16 := Nat.le_of_dvd (by norm_num) ha
  have hb : bytes % W32 = bytes := Nat.mod_eq_of_lt (by omega)
  rw [hb]
  apply Nat.mod_eq_of_lt
  omega

/-- On a fresh active arena (full `bytesLeft`, bump pointer at the
arena's upper bound) a request of at most the arena size always fits,
for any alignment dividing 16: the padded size `bytes + offset` is the
round-up of `bytes` to a multiple of the alignment, which cannot exceed
the (alignment-divisible) arena size. -/
theorem fresh_fits {g : Geom} {s : UState} {bytes alignment : Nat}
    (hg : GeomOK g) (hact : s.activeArenaId < g.numArenas)
    (hbl : s.bytesLeft = g.arenaSize)
    (hdata : s.data = g.base + g.arenaSize * (s.activeArenaId + 1))
    (ha0 : 0 < alignment) (ha : alignment ∣ 16) (hb1 : 1 ≤ bytes)
    (hbS : bytes ≤ g.arenaSize) (hbw : bytes + 16 ≤ W32) :
    ¬ allocNeeded s bytes alignment > s.bytesLeft := by
  have hSpos := hg.arenaSize_pos
  have hdW : s.data < W64 := by
    have h1 : g.arenaSize * (s.activeArenaId + 1) ≤
        g.arenaSize * g.numArenas := Nat.mul_le_mul_left _ (by omega)
    have := hg.addr_fits
    rw [hdata]
    rw [Nat.mul_comm g.numArenas g.arenaSize] at this
    omega
  have hbd : bytes ≤ s.data := by
    rw [hdata]
    have : g.arenaSize ≤ g.arenaSize * (s.activeArenaId + 1) := by
      have := Nat.mul_le_mul_left g.arenaSize
        (show 1 ≤ s.activeArenaId + 1 by omega)
      omega
    omega
  have hptr : allocPtr s bytes = s.data - bytes := wrap_sub_exact hbd hdW
  have hneed : allocNeeded s bytes alignment =
      bytes + allocOff s bytes alignment := allocNeeded_eq ha0 ha hbw
  have hoffmod : allocOff s bytes alignment =
      allocPtr s bytes % alignment := allocOff_eq_mod ha0 ha
  -- the alignment divides the bump pointer
  have hdvd16 : (16 : Nat) ∣ s.data := by
    rw [hdata]
    have hb16 : (16 : Nat) ∣ g.base := Nat.dvd_of_mod_eq_zero hg.base_align
    have hs16 : (16 : Nat) ∣ g.arenaSize := Nat.dvd_of_mod_eq_zero
      hg.arenaSize_align
    exact Nat.dvd_add hb16 (Dvd.dvd.mul_right hs16 _)
  have hdvdd : alignment ∣ s.data := dvd_trans ha hdvd16
  have hdvdS : alignment ∣ g.arenaSize :=
    dvd_trans ha (Nat.dvd_of_mod_eq_zero hg.arenaSize_align)
  -- the padded size is a multiple of the alignment
  have hdvdsum : alignment ∣ (bytes + allocOff s bytes alignment) := by
    rw [hoffmod, hptr]
    apply Nat.dvd_of_mod_eq_zero
    have h1 : (bytes + (s.data - bytes) % alignment) % alignment =
        (bytes + (s.data - bytes)) % alignment := Nat.add_mod_mod _ _ _
    rw [h1, Nat.add_sub_cancel' hbd, Nat.mod_eq_zero_of_dvd hdvdd]
  have hofflt : allocOff s bytes alignment < alignment := allocOff_lt ha0 ha
  -- a multiple of the alignment below `arenaSize + alignment` is at
  -- most `arenaSize`
  obtain ⟨u, hu⟩ := hdvdsum
  obtain ⟨m, hm⟩ := hdvdS
  have hlt : alignment * u < alignment * m + alignment := by omega
  have hum : u ≤ m := by
    by_contra hc
    have hm1 : m + 1 ≤ u := by omega
    have h2 := Nat.mul_le_mul_left alignment hm1
    rw [Nat.mul_add, Nat.mul_one] at h2
    omega
  have : bytes + allocOff s bytes alignment ≤ g.arenaSize := by
    rw [hu, hm]
    exact Nat.mul_le_mul_left _ hum
  rw [hneed, hbl]
  omega

/-- A non-empty free-list prefix decomposes as its tail prefix plus its
top element. -/
theorem take_succ_getD {l : List Nat} {m : Nat} (hm : m < l.length) :
    l.take (m + 1) = l.take m ++ [l.getD m 0] := by
  rw [List.take_succ, List.getElem?_eq_getElem hm,
    List.getD_eq_getElem?_getD, List.getElem?_eq_getElem hm]
  rfl

theorem take_decomp {l : List Nat} {h : Nat} (h0 : h ≠ 0)
    (hle : h ≤ l.length) :
    l.take h = l.take (h - 1) ++ [l.getD (h - 1) 0] := by
  obtain ⟨m, rfl⟩ : ∃ m, h = m + 1 := ⟨h - 1, by omega⟩
  simp only [Nat.add_sub_cancel]
  exact take_succ_getD (by omega)

/-- `reserveNextArena` (with a non-empty free list) preserves the
invariant provided the arena it abandons still holds allocations; it
activates a fresh arena. -/
theorem uinv_reserve {g : Geom} {s : UState} {L : List Nat}
    (hg : GeomOK g) (hInv : UInv g s L) (h0 : s.freeListHead ≠ 0)
    (hbusy : 0 < s.counts.getD s.activeArenaId 0) :
    UInv g (reserveArena g s) L ∧
    (reserveArena g s).bytesLeft = g.arenaSize ∧
    (reserveArena g s).data = g.base + g.arenaSize *
      ((reserveArena g s).activeArenaId + 1) ∧
    (reserveArena g s).counts = s.counts ∧
    (reserveArena g s).freeListHead = s.freeListHead - 1 := by
  have hSpos := hg.arenaSize_pos
  have hhead := hInv.head_le
  have hflen := hInv.flist_len
  set id := s.freeList.getD (s.freeListHead - 1) 0 with hiddef
  have hid_lt : id < g.numArenas := hInv.free_lt _ (by omega)
  have hdata : (g.base + g.arenaSize * (id + 1)) % W64 =
      g.base + g.arenaSize * (id + 1) := by
    apply Nat.mod_eq_of_lt
    have h1 : g.arenaSize * (id + 1) ≤ g.arenaSize * g.numArenas :=
      Nat.mul_le_mul_left _ (by omega)
    have := hg.addr_fits
    rw [Nat.mul_comm g.numArenas g.arenaSize] at this
    omega
  have hdecomp : s.freeList.take s.freeListHead =
      s.freeList.take (s.freeListHead - 1) ++ [id] :=
    take_decomp h0 (by omega)
  have htail_nodup : (s.freeList.take (s.freeListHead - 1)).Nodup := by
    have := hInv.free_nodup
    rw [hdecomp] at this
    exact (List.nodup_append.mp this).1
  have hid_nottail : id ∉ s.freeList.take (s.freeListHead - 1) := by
    have := hInv.free_nodup
    rw [hdecomp] at this
    have hdisj := (List.nodup_append.mp this).2.2
    intro hmem
    exact hdisj hmem (by simp)
  have hact_nottail : s.activeArenaId ∉
      s.freeList.take (s.freeListHead - 1) := by
    intro hmem
    apply hInv.active_notfree
    rw [hdecomp]
    exact List.mem_append_left _ hmem
  have hid_count0 : s.counts.getD id 0 = 0 :=
    hInv.free_count0 _ (by omega)
  have hres : reserveArena g s =
      { s with freeListHead := s.freeListHead - 1
               bytesLeft := g.arenaSize
               activeArenaId := id
               data := g.base + g.arenaSize * (id + 1) } := by
    unfold reserveArena
    dsimp only
    rw [← hiddef, hdata]
  rw [hres]
  refine ⟨⟨?_, ?_, ?_, ?_, ?_, ?_, ?_, ?_, ?_, ?_, ?_, ?_, ?_, ?_, ?_, ?_,
    ?_⟩, ?_, ?_, ?_, ?_⟩
  all_goals dsimp only
  · exact hInv.counts_len
  · exact hInv.flist_len
  · exact hid_lt
  · omega
  · omega
  · rw [Nat.mul_succ]
    omega
  · omega
  · intro j hj
    exact hInv.free_lt j (by omega)
  · exact htail_nodup
  · exact hid_nottail
  · exact hInv.counts_live
  · intro j hj
    exact hInv.free_count0 j (by omega)
  · exact hInv.live_in
  · intro i hi
    rcases hInv.busy_or i hi with h | h | h
    · right
      right
      rw [h]
      exact hbusy
    · rw [hdecomp] at h
      rcases List.mem_append.mp h with h | h
      · right
        left
        exact h
      · left
        simp at h
        exact h
    · right
      right
      exact h
  · intro hc
    rfl
  · rw [hid_count0]
    omega
  · intro i hi
    exact hInv.counts_le i hi

/-- A fitting request commits: the returned pointer is aligned, lies in
the active arena, and the invariant carries over to the extended live
list. -/
theorem uinv_commit {g : Geom} {s : UState} {L : List Nat}
    {bytes alignment : Nat}
    (hg : GeomOK g) (hInv : UInv g s L) (ha0 : 0 < alignment)
    (ha : alignment ∣ 16) (hb1 : 1 ≤ bytes) (hbw : bytes + 16 ≤ W32)
    (hfit : ¬ allocNeeded s bytes alignment > s.bytesLeft) :
    UInv g (do_allocate_details g s bytes alignment).2
      ((allocPtr s bytes - allocOff s bytes alignment) :: L) ∧
    (do_allocate_details g s bytes alignment).1 =
      some (allocPtr s bytes - allocOff s bytes alignment) ∧
    (allocPtr s bytes - allocOff s bytes alignment) % alignment = 0 ∧
    g.base ≤ allocPtr s bytes - allocOff s bytes alignment ∧
    allocPtr s bytes - allocOff s bytes alignment <
      g.base + g.numArenas * g.arenaSize ∧
    arenaOf g (allocPtr s bytes - allocOff s bytes alignment) =
      s.activeArenaId := by
  have hSpos := hg.arenaSize_pos
  have hact := hInv.active_lt
  have hdlow := hInv.data_low
  have hdhigh := hInv.data_high
  have hbll := hInv.bytesLeft_le
  have hoffa : allocOff s bytes alignment < alignment := allocOff_lt ha0 ha
  have ha16 : alignment ≤ 16 := Nat.le_of_dvd (by norm_num) ha
  have hneed : allocNeeded s bytes alignment =
      bytes + allocOff s bytes alignment := allocNeeded_eq ha0 ha hbw
  have hfit' : bytes + allocOff s bytes alignment ≤ s.bytesLeft := by
    omega
  have hdW : s.data < W64 := by
    have h1 : g.arenaSize * (s.activeArenaId + 1) ≤
        g.arenaSize * g.numArenas := Nat.mul_le_mul_left _ (by omega)
    have := hg.addr_fits
    rw [Nat.mul_comm g.numArenas g.arenaSize] at this
    omega
  have hbd : bytes ≤ s.data := by omega
  have hptr : allocPtr s bytes = s.data - bytes := wrap_sub_exact hbd hdW
  have hoffmod : allocOff s bytes alignment =
      allocPtr s bytes % alignment := allocOff_eq_mod ha0 ha
  have hoffle : allocOff s bytes alignment ≤ allocPtr s bytes := by
    rw [hoffmod]
    exact Nat.mod_le _ _
  set p := allocPtr s bytes - allocOff s bytes alignment with hpdef
  have hpeq : p = s.data - (bytes + allocOff s bytes alignment) := by
    rw [hpdef, hptr]
    omega
  have hplow : g.base + g.arenaSize * s.activeArenaId ≤ p := by omega
  have hphigh : p < g.base + g.arenaSize * (s.activeArenaId + 1) := by
    omega
  have hparena : arenaOf g p = s.activeArenaId :=
    arenaOf_eq hSpos hplow hphigh
  have hpmod : p % alignment = 0 := by
    have hdm := Nat.div_add_mod (allocPtr s bytes) alignment
    have hp2 : p = alignment * (allocPtr s bytes / alignment) := by
      rw [hpdef, hoffmod]
      omega
    rw [hp2]
    exact Nat.mul_mod_right _ _
  have hpltN : p < g.base + g.numArenas * g.arenaSize := by
    have h1 : g.arenaSize * (s.activeArenaId + 1) ≤
        g.arenaSize * g.numArenas := Nat.mul_le_mul_left _ (by omega)
    rw [Nat.mul_comm g.numArenas g.arenaSize]
    omega
  have hBle : g.base ≤ p := by omega
  have hclen : s.activeArenaId < s.counts.length := by
    rw [hInv.counts_len]
    exact hact
  set c := s.counts.getD s.activeArenaId 0 with hcdef
  have hc_le := hInv.count_active_le
  have hcW : c + 1 < W32 := by
    have := hg.arenaSize_lt
    omega
  have hmodc : (c + 1) % W32 = c + 1 := Nat.mod_eq_of_lt hcW
  rw [details_commit hfit]
  have hfree_ne_act : ∀ j < s.freeListHead,
      s.freeList.getD j 0 ≠ s.activeArenaId := by
    intro j hj hne
    apply hInv.active_notfree
    have := mem_take_getD s.freeList
      (by rw [hInv.flist_len]; exact hInv.head_le) hj
    rw [hne] at this
    exact this
  refine ⟨⟨?_, ?_, ?_, ?_, ?_, ?_, ?_, ?_, ?_, ?_, ?_, ?_, ?_, ?_, ?_, ?_,
    ?_⟩, rfl, hpmod, hBle, hpltN, hparena⟩
  all_goals dsimp only
  · rw [List.length_set]
    exact hInv.counts_len
  · exact hInv.flist_len
  · exact hact
  · exact hInv.head_le
  · omega
  · omega
  · omega
  · exact hInv.free_lt
  · exact hInv.free_nodup
  · exact hInv.active_notfree
  · intro i hi
    by_cases hieq : i = s.activeArenaId
    · rw [hieq, getD_set_self _ hclen, hmodc, List.countP_cons]
      have hbeq : (arenaOf g p == s.activeArenaId) = true := by
        simp [hparena]
      rw [hbeq]
      have hcl := hInv.counts_live s.activeArenaId hact
      rw [← hcdef] at hcl
      rw [hcl]
      simp
    · have hne : s.activeArenaId ≠ i := fun hh => hieq hh.symm
      rw [getD_set_ne _ hne, List.countP_cons]
      have hbeq : (arenaOf g p == i) = false := by
        simp [hparena]
        omega
      rw [hbeq]
      rw [hInv.counts_live i hi]
      simp
  · intro j hj
    rw [getD_set_ne _ ?hne]
    · exact hInv.free_count0 j hj
    · exact fun hh => hfree_ne_act j hj hh.symm
  · intro q hq
    rcases List.mem_cons.mp hq with h | h
    · subst h
      exact ⟨hBle, hpltN⟩
    · exact hInv.live_in q h
  · intro i hi
    by_cases hieq : i = s.activeArenaId
    · left
      exact hieq
    · rcases hInv.busy_or i hi with h | h | h
      · exact absurd h hieq
      · right
        left
        exact h
      · right
        right
        rw [getD_set_ne _ (fun hh => hieq hh.symm)]
        exact h
  · rw [getD_set_self _ hclen, hmodc]
    intro h
    omega
  · rw [getD_set_self _ hclen, hmodc]
    omega
  · intro i hi
    by_cases hieq : i = s.activeArenaId
    · subst hieq
      rw [getD_set_self _ hclen, hmodc]
      omega
    · rw [getD_set_ne _ (fun hh => hieq hh.symm)]
      exact hInv.counts_le i hi

/-- Behaviour of `do_allocate_details` from any invariant state and any
valid call: a null result leaves the state untouched, and a non-null
result is an aligned in-pool pointer with the invariant extended by it.
At most one arena is reserved along the way, because a retry on a fresh
arena always succeeds for alignments dividing 16. -/
theorem details_spec {g : Geom} {s : UState} {L : List Nat}
    {bytes alignment : Nat}
    (hg : GeomOK g) (hInv : UInv g s L) (ha0 : 0 < alignment)
    (ha : alignment ∣ 16) (hb1 : 1 ≤ bytes) (hbw : bytes + 16 ≤ W32) :
    ((do_allocate_details g s bytes alignment).1 = none →
      (do_allocate_details g s bytes alignment).2 = s) ∧
    (∀ p, (do_allocate_details g s bytes alignment).1 = some p →
      UInv g (do_allocate_details g s bytes alignment).2 (p :: L) ∧
      p % alignment = 0 ∧ g.base ≤ p ∧
      p < g.base + g.numArenas * g.arenaSize) := by
  by_cases hfit : allocNeeded s bytes alignment > s.bytesLeft
  · by_cases hbS : bytes ≤ g.arenaSize
    · by_cases h0 : s.freeListHead = 0
      · rw [details_fail hfit (Or.inr h0)]
        exact ⟨fun _ => rfl, fun p hp => by simp at hp⟩
      · have hbusy : 0 < s.counts.getD s.activeArenaId 0 := by
          by_contra hc
          have h00 : s.counts.getD s.activeArenaId 0 = 0 := by omega
          have hbl := hInv.active0_full h00
          have hdata : s.data =
              g.base + g.arenaSize * (s.activeArenaId + 1) := by
            have h1 := hInv.data_low
            have h2 := hInv.data_high
            rw [hbl] at h1
            rw [Nat.mul_succ] at h2 ⊢
            omega
          exact (fresh_fits hg hInv.active_lt hbl hdata ha0 ha hb1 hbS hbw)
            hfit
        obtain ⟨hInv1, hbl1, hdata1, hcounts1, hhead1⟩ :=
          uinv_reserve hg hInv h0 hbusy
        rw [details_retry hfit hbS h0]
        have hfit1 : ¬ allocNeeded (reserveArena g s) bytes alignment >
            (reserveArena g s).bytesLeft :=
          fresh_fits hg hInv1.active_lt hbl1 hdata1 ha0 ha hb1 hbS hbw
        obtain ⟨hI, hsome, hmod, hle, hlt, _⟩ :=
          uinv_commit hg hInv1 ha0 ha hb1 hbw hfit1
        constructor
        · intro hnone
          rw [hsome] at hnone
          simp at hnone
        · intro p hp
          rw [hsome] at hp
          have hpe : allocPtr (reserveArena g s) bytes -
              allocOff (reserveArena g s) bytes alignment = p := by
            injection hp
          rw [← hpe]
          exact ⟨hI, hmod, hle, hlt⟩
    · rw [details_fail hfit (Or.inl (by omega))]
      exact ⟨fun _ => rfl, fun p hp => by simp at hp⟩
  · obtain ⟨hI, hsome, hmod, hle, hlt, _⟩ :=
      uinv_commit hg hInv ha0 ha hb1 hbw hfit
    constructor
    · intro hnone
      rw [hsome] at hnone
      simp at hnone
    · intro p hp
      rw [hsome] at hp
      have hpe : allocPtr s bytes - allocOff s bytes alignment = p := by
        injection hp
      rw [← hpe]
      exact ⟨hI, hmod, hle, hlt⟩

/-- `do_allocate` unfolded for a non-zero request. -/
theorem do_allocate_eq {g : Geom} {s : UState} {bytes alignment : Nat}
    (hb : bytes ≠ 0) :
    do_allocate g s bytes alignment =
      match do_allocate_details g s bytes alignment with
      | (some p, s1) => (.success p, s1)
      | (none, s1) =>
        if bytes > g.arenaSize then (.tooLarge bytes g.arenaSize, s1)
        else (.exhausted g.numArenas, s1) := by
  unfold do_allocate
  rw [if_neg hb]

/-- A `do_allocate` call that does not return a pointer leaves the
state exactly as it was (for the valid alignments): `nullptr` for zero
bytes, and both thrown exceptions. -/
theorem alloc_fail_unchanged {g : Geom} {s : UState} {L : List Nat}
    {bytes alignment : Nat} {r : AllocOutcome} {s1 : UState}
    (hg : GeomOK g) (hInv : UInv g s L) (ha0 : 0 < alignment)
    (ha : alignment ∣ 16) (hbw : bytes + 16 ≤ W32)
    (heq : do_allocate g s bytes alignment = (r, s1))
    (hnp : ∀ p, r ≠ .success p) : s1 = s := by
  by_cases hb : bytes = 0
  · unfold do_allocate at heq
    rw [if_pos hb] at heq
    injection heq with h1 h2
    exact h2.symm
  · rw [do_allocate_eq hb] at heq
    obtain ⟨hnone, hsome⟩ := details_spec hg hInv ha0 ha (by omega) hbw
    rcases hdet : do_allocate_details g s bytes alignment with ⟨r1, s2⟩
    rw [hdet] at heq hnone
    rcases r1 with _ | p
    · simp at heq hnone
      have h2 : s1 = s2 := by
        by_cases hL : bytes > g.arenaSize <;> simp [hL] at heq <;>
          exact heq.2.symm
      rw [h2, hnone]
    · simp at heq
      exact absurd heq.1.symm (hnp p)

/-- A successful `do_allocate` returns an aligned in-pool pointer and
carries the invariant to the extended live list. -/
theorem alloc_success_spec {g : Geom} {s : UState} {L : List Nat}
    {bytes alignment p : Nat} {s1 : UState}
    (hg : GeomOK g) (hInv : UInv g s L) (ha0 : 0 < alignment)
    (ha : alignment ∣ 16) (hbw : bytes + 16 ≤ W32)
    (heq : do_allocate g s bytes alignment = (.success p, s1)) :
    UInv g s1 (p :: L) ∧ p % alignment = 0 ∧ g.base ≤ p ∧
    p < g.base + g.numArenas * g.arenaSize := by
  by_cases hb : bytes = 0
  · unfold do_allocate at heq
    rw [if_pos hb] at heq
    simp at heq
  · rw [do_allocate_eq hb] at heq
    obtain ⟨hnone, hsome⟩ := details_spec hg hInv ha0 ha (by omega) hbw
    rcases hdet : do_allocate_details g s bytes alignment with ⟨r1, s2⟩
    rw [hdet] at heq hsome
    rcases r1 with _ | q
    · by_cases hL : bytes > g.arenaSize <;> simp [hL] at heq
    · simp at heq hsome
      obtain ⟨hq, hs⟩ := heq
      subst hq
      subst hs
      exact hsome

/-- Every member of the free-list prefix is a valid arena id. -/
theorem take_mem_lt {g : Geom} {s : UState} {L : List Nat}
    (hInv : UInv g s L) :
    ∀ x ∈ s.freeList.take s.freeListHead, x < g.numArenas := by
  intro x hx
  rw [List.mem_iff_get] at hx
  obtain ⟨⟨j, hj⟩, hval⟩ := hx
  have hjh : j < s.freeListHead := by
    have := hj
    rw [List.length_take] at this
    omega
  have hjfull : j < s.freeList.length := by
    rw [hInv.flist_len]
    exact Nat.lt_of_lt_of_le hjh hInv.head_le
  have : x = s.freeList.getD j 0 := by
    rw [← hval, List.get_eq_getElem, List.getElem_take,
      List.getD_eq_getElem?_getD, List.getElem?_eq_getElem hjfull]
    rfl
  rw [this]
  exact hInv.free_lt j hjh

/-- The free-list prefix has exactly `freeListHead` distinct members. -/
theorem take_card {g : Geom} {s : UState} {L : List Nat}
    (hInv : UInv g s L) :
    (s.freeList.take s.freeListHead).toFinset.card = s.freeListHead := by
  rw [List.toFinset_card_of_nodup hInv.free_nodup, List.length_take,
    hInv.flist_len]
  have := hInv.head_le
  omega

/-- With a busy non-active arena present, the free list has room for at
least two more ids. -/
theorem head_lt_of_busy {g : Geom} {s : UState} {L : List Nat}
    (hInv : UInv g s L) {k : Nat} (hk : k < g.numArenas)
    (hkact : k ≠ s.activeArenaId)
    (hkfree : k ∉ s.freeList.take s.freeListHead) :
    s.freeListHead + 2 ≤ g.numArenas := by
  set F := (s.freeList.take s.freeListHead).toFinset with hF
  have hsub : insert s.activeArenaId (insert k F) ⊆
      Finset.range g.numArenas := by
    intro x hx
    rw [Finset.mem_insert] at hx
    rcases hx with rfl | hx
    · exact Finset.mem_range.mpr hInv.active_lt
    rw [Finset.mem_insert] at hx
    rcases hx with rfl | hx
    · exact Finset.mem_range.mpr hk
    · rw [hF, List.mem_toFinset] at hx
      exact Finset.mem_range.mpr (take_mem_lt hInv x hx)
  have hcard := Finset.card_le_card hsub
  rw [Finset.card_range] at hcard
  have hkF : k ∉ F := by
    rw [hF, List.mem_toFinset]
    exact hkfree
  have haF : s.activeArenaId ∉ insert k F := by
    rw [Finset.mem_insert]
    push_neg
    refine ⟨fun hh => hkact hh.symm, ?_⟩
    rw [hF, List.mem_toFinset]
    exact hInv.active_notfree
  rw [Finset.card_insert_of_not_mem haF, Finset.card_insert_of_not_mem hkF,
    take_card hInv] at hcard
  omega

/-- Deallocating a live pointer never reports corruption and preserves
the invariant with that pointer retired. -/
theorem dealloc_spec {g : Geom} {s : UState} {L : List Nat} {i : Nat}
    (hg : GeomOK g) (hInv : UInv g s L) (hi : i < L.length) :
    ∃ s1, do_deallocate g s (L.get ⟨i, hi⟩) = some s1 ∧
      UInv g s1 (L.eraseIdx i) := by
  have hSpos := hg.arenaSize_pos
  set p := L.get ⟨i, hi⟩ with hpdef
  have hp : p ∈ L := get_mem_of_lt hi
  obtain ⟨hBp, hpN⟩ := hInv.live_in p hp
  set k := arenaOf g p with hkdef
  have hkN : k < g.numArenas := arenaOf_lt hSpos hBp hpN
  have hid : deallocArenaId g p = k := deallocArenaId_eq hg hBp hpN
  have hguard : ¬ g.numArenas ≤ deallocArenaId g p := by
    rw [hid]
    omega
  set c := s.counts.getD k 0 with hcdef
  have hcl := hInv.counts_live k hkN
  have hc1 : 1 ≤ c := by
    have hpos := countP_pos_of_mem (fun q => arenaOf g q == k) hp
      (by simp [hkdef])
    omega
  have hcW : c < W32 :=
    Nat.lt_of_le_of_lt (hInv.counts_le k hkN) hg.arenaSize_lt
  have hdec : (c + (W32 - 1)) % W32 = c - 1 := wrap_dec_exact hc1 hcW
  have hclen_k : k < s.counts.length := by
    rw [hInv.counts_len]
    exact hkN
  have hcount_k : (L.eraseIdx i).countP (fun q => arenaOf g q == k) + 1 =
      L.countP (fun q => arenaOf g q == k) := by
    apply countP_eraseIdx_true hi
    simp only [← hpdef, ← hkdef]
    simp
  have hcount_j : ∀ j, j ≠ k →
      (L.eraseIdx i).countP (fun q => arenaOf g q == j) =
      L.countP (fun q => arenaOf g q == j) := by
    intro j hj
    apply countP_eraseIdx_false hi
    simp only [← hpdef, ← hkdef]
    simp
    omega
  have hkfree_imp : k ∈ s.freeList.take s.freeListHead → False := by
    intro hmem
    rw [List.mem_iff_get] at hmem
    obtain ⟨⟨j, hj⟩, hval⟩ := hmem
    have hjh : j < s.freeListHead := by
      have := hj
      rw [List.length_take] at this
      omega
    have hjfull : j < s.freeList.length :=
      Nat.lt_of_lt_of_le hjh (by rw [hInv.flist_len]; exact hInv.head_le)
    have hgd : s.freeList.getD j 0 = k := by
      rw [← hval, List.get_eq_getElem, List.getElem_take,
        List.getD_eq_getElem?_getD, List.getElem?_eq_getElem hjfull]
      rfl
    have := hInv.free_count0 j hjh
    rw [hgd] at this
    omega
  have hfree_ne_k : ∀ j < s.freeListHead, s.freeList.getD j 0 ≠ k := by
    intro j hj hne
    apply hkfree_imp
    rw [← hne]
    exact mem_take_getD s.freeList
      (by rw [hInv.flist_len]; exact hInv.head_le) hj
  have hL' : ∀ q ∈ L.eraseIdx i, g.base ≤ q ∧
      q < g.base + g.numArenas * g.arenaSize := by
    intro q hq
    exact hInv.live_in q ((List.eraseIdx_sublist L i).subset hq)
  have hstep : do_deallocate g s p = some (
      if c - 1 = 0 then
        if k = s.activeArenaId then
          resetActiveArena g { s with counts := s.counts.set k (c - 1) }
        else releaseArena g { s with counts := s.counts.set k (c - 1) } k
      else { s with counts := s.counts.set k (c - 1) }) := by
    unfold do_deallocate
    rw [if_neg hguard, hid, ← hcdef, hdec]
  by_cases hc0 : c - 1 = 0
  · by_cases hka : k = s.activeArenaId
    · -- the active arena becomes vacant: reset in place
      rw [hstep, if_pos hc0, if_pos hka]
      refine ⟨_, rfl, ?_⟩
      have hdata : (g.base + g.arenaSize * (s.activeArenaId + 1)) % W64 =
          g.base + g.arenaSize * (s.activeArenaId + 1) := by
        apply Nat.mod_eq_of_lt
        have h1 : g.arenaSize * (s.activeArenaId + 1) ≤
            g.arenaSize * g.numArenas :=
          Nat.mul_le_mul_left _ (by have := hInv.active_lt; omega)
        have := hg.addr_fits
        rw [Nat.mul_comm g.numArenas g.arenaSize] at this
        omega
      have hgdk : ∀ v w : Nat,
          ((s.counts.set k v).set s.activeArenaId w).getD k 0 = w := by
        intro v w
        rw [hka]
        apply getD_set_self
        rw [List.length_set, ← hka]
        exact hclen_k
      have hgdact : ∀ v w : Nat,
          ((s.counts.set k v).set s.activeArenaId w).getD
            s.activeArenaId 0 = w := by
        intro v w
        apply getD_set_self
        rw [List.length_set, ← hka]
        exact hclen_k
      have hgdj : ∀ v w : Nat, ∀ j, j ≠ k →
          ((s.counts.set k v).set s.activeArenaId w).getD j 0 =
          s.counts.getD j 0 := by
        intro v w j hj
        rw [← hka]
        rw [getD_set_ne _ (fun hh => hj hh.symm),
          getD_set_ne _ (fun hh => hj hh.symm)]
      refine ⟨?_, ?_, ?_, ?_, ?_, ?_, ?_, ?_, ?_, ?_, ?_, ?_, ?_, ?_, ?_,
        ?_, ?_⟩
      all_goals try simp only [resetActiveArena, hdata]
      all_goals try dsimp only
      · rw [List.length_set, List.length_set]
        exact hInv.counts_len
      · exact hInv.flist_len
      · exact hInv.active_lt
      · exact hInv.head_le
      · omega
      · rw [Nat.mul_succ]
        omega
      · omega
      · exact hInv.free_lt
      · exact hInv.free_nodup
      · exact hInv.active_notfree
      · intro j hj
        by_cases hjk : j = k
        · rw [hjk, hgdk]
          omega
        · rw [hgdj _ _ j hjk, hcount_j j hjk]
          exact hInv.counts_live j hj
      · intro j hj
        rw [hgdj _ _ _ (hfree_ne_k j hj)]
        exact hInv.free_count0 j hj
      · exact hL'
      · intro j hj
        by_cases hjk : j = k
        · left
          rw [hjk, hka]
        · rcases hInv.busy_or j hj with h | h | h
          · left
            exact h
          · right
            left
            exact h
          · right
            right
            rw [hgdj _ _ j hjk]
            exact h
      · intro hcnd
        trivial
      · rw [hgdact]
        omega
      · intro j hj
        by_cases hjk : j = k
        · rw [hjk, hgdk]
          omega
        · rw [hgdj _ _ j hjk]
          exact hInv.counts_le j hj
    · -- a non-active arena becomes vacant: release to the free list
      rw [hstep, if_pos hc0, if_neg hka]
      refine ⟨_, rfl, ?_⟩
      have hhead2 : s.freeListHead + 2 ≤ g.numArenas :=
        head_lt_of_busy hInv hkN hka hkfree_imp
      have hheadlen : s.freeListHead < s.freeList.length := by
        rw [hInv.flist_len]
        omega
      have hgdk : ∀ v w : Nat,
          ((s.counts.set k v).set k w).getD k 0 = w := by
        intro v w
        rw [getD_set_self _ (by rw [List.length_set]; exact hclen_k)]
      have hgdj : ∀ v w : Nat, ∀ j, j ≠ k →
          ((s.counts.set k v).set k w).getD j 0 = s.counts.getD j 0 := by
        intro v w j hj
        rw [getD_set_ne _ (fun hh => hj hh.symm),
          getD_set_ne _ (fun hh => hj hh.symm)]
      have htake_eq : (s.freeList.set s.freeListHead k).take s.freeListHead =
          s.freeList.take s.freeListHead := take_set_of_le _ (Nat.le_refl _)
      have htake1 : (s.freeList.set s.freeListHead k).take
          (s.freeListHead + 1) =
          s.freeList.take s.freeListHead ++ [k] := by
        rw [take_succ_getD (by rw [List.length_set]; exact hheadlen)]
        rw [htake_eq, getD_set_self _ hheadlen]
      refine ⟨?_, ?_, ?_, ?_, ?_, ?_, ?_, ?_, ?_, ?_, ?_, ?_, ?_, ?_, ?_,
        ?_, ?_⟩
      all_goals try simp only [releaseArena]
      all_goals try dsimp only
      · rw [List.length_set, List.length_set]
        exact hInv.counts_len
      · rw [List.length_set]
        exact hInv.flist_len
      · exact hInv.active_lt
      · omega
      · exact hInv.bytesLeft_le
      · exact hInv.data_low
      · exact hInv.data_high
      · intro j hj
        by_cases hjh : j = s.freeListHead
        · rw [hjh, getD_set_self _ hheadlen]
          exact hkN
        · rw [getD_set_ne _ (fun hh => hjh hh.symm)]
          exact hInv.free_lt j (by omega)
      · rw [htake1]
        rw [List.nodup_append]
        refine ⟨hInv.free_nodup, List.nodup_singleton k, ?_⟩
        intro a ha hak
        rw [List.mem_singleton] at hak
        rw [hak] at ha
        exact hkfree_imp ha
      · rw [htake1]
        intro hmem
        rcases List.mem_append.mp hmem with h | h
        · exact hInv.active_notfree h
        · rw [List.mem_singleton] at h
          exact hka h.symm
      · intro j hj
        by_cases hjk : j = k
        · rw [hjk, hgdk]
          omega
        · rw [hgdj _ _ j hjk, hcount_j j hjk]
          exact hInv.counts_live j hj
      · intro j hj
        by_cases hjh : j = s.freeListHead
        · rw [hjh, getD_set_self _ hheadlen, hgdk]
        · rw [getD_set_ne _ (fun hh => hjh hh.symm)]
          have hjlt : j < s.freeListHead := by omega
          rw [hgdj _ _ _ (hfree_ne_k j hjlt)]
          exact hInv.free_count0 j hjlt
      · exact hL'
      · intro j hj
        by_cases hjk : j = k
        · right
          left
          rw [htake1, hjk]
          exact List.mem_append_right _ (by simp)
        · rcases hInv.busy_or j hj with h | h | h
          · left
            exact h
          · right
            left
            rw [htake1]
            exact List.mem_append_left _ h
          · right
            right
            rw [hgdj _ _ j hjk]
            exact h
      · intro hcnd
        apply hInv.active0_full
        rw [hgdj _ _ _ (fun hh => hka hh.symm)] at hcnd
        exact hcnd
      · rw [hgdj _ _ _ (fun hh => hka hh.symm)]
        exact hInv.count_active_le
      · intro j hj
        by_cases hjk : j = k
        · rw [hjk, hgdk]
          omega
        · rw [hgdj _ _ j hjk]
          exact hInv.counts_le j hj
  · -- the arena still holds allocations: only the counter changes
    rw [hstep, if_neg hc0]
    refine ⟨_, rfl, ?_⟩
    have hgdk : (s.counts.set k (c - 1)).getD k 0 = c - 1 :=
      getD_set_self _ hclen_k
    have hgdj : ∀ j, j ≠ k →
        (s.counts.set k (c - 1)).getD j 0 = s.counts.getD j 0 := by
      intro j hj
      rw [getD_set_ne _ (fun hh => hj hh.symm)]
    refine ⟨?_, ?_, ?_, ?_, ?_, ?_, ?_, ?_, ?_, ?_, ?_, ?_, ?_, ?_, ?_,
      ?_, ?_⟩
    all_goals try dsimp only
    · rw [List.length_set]
      exact hInv.counts_len
    · exact hInv.flist_len
    · exact hInv.active_lt
    · exact hInv.head_le
    · exact hInv.bytesLeft_le
    · exact hInv.data_low
    · exact hInv.data_high
    · exact hInv.free_lt
    · exact hInv.free_nodup
    · exact hInv.active_notfree
    · intro j hj
      by_cases hjk : j = k
      · rw [hjk, hgdk]
        omega
      · rw [hgdj j hjk, hcount_j j hjk]
        exact hInv.counts_live j hj
    · intro j hj
      rw [hgdj _ (hfree_ne_k j hj)]
      exact hInv.free_count0 j hj
    · exact hL'
    · intro j hj
      by_cases hjk : j = k
      · right
        right
        rw [hjk, hgdk]
        omega
      · rcases hInv.busy_or j hj with h | h | h
        · left
          exact h
        · right
          left
          exact h
        · right
          right
          rw [hgdj j hjk]
          exact h
    · intro hcnd
      by_cases hak : s.activeArenaId = k
      · rw [hak, hgdk] at hcnd
        omega
      · rw [hgdj _ hak] at hcnd
        exact hInv.active0_full hcnd
    · by_cases hak : s.activeArenaId = k
      · rw [hak, hgdk]
        have := hInv.count_active_le
        rw [hak, ← hcdef] at this
        omega
      · rw [hgdj _ hak]
        exact hInv.count_active_le
    · intro j hj
      by_cases hjk : j = k
      · rw [hjk, hgdk]
        have := hInv.counts_le k hkN
        omega
      · rw [hgdj j hjk]
        exact hInv.counts_le j hj

/-- Summing the per-arena bucket counts of a list of in-pool pointers
gives its length. -/
theorem sum_countP_buckets (g : Geom) (N : Nat) (L : List Nat)
    (hL : ∀ p ∈ L, arenaOf g p < N) :
    ((List.range N).map
      (fun i => L.countP (fun q => arenaOf g q == i))).sum = L.length := by
  induction L with
  | nil => simp
  | cons a t ih =>
    have ha : arenaOf g a < N := hL a (by simp)
    have ht : ∀ p ∈ t, arenaOf g p < N := fun p hp => hL p (by simp [hp])
    have hsplit : ∀ i, (a :: t).countP (fun q => arenaOf g q == i) =
        t.countP (fun q => arenaOf g q == i) +
        (if arenaOf g a = i then 1 else 0) := by
      intro i
      rw [List.countP_cons]
      by_cases h : arenaOf g a = i <;> simp [h]
    rw [sum_map_range_congr (fun i _ => hsplit i), sum_map_range_add,
      ih ht, sum_indicator ha]
    simp

/-- In an invariant state, `numberOfAllocations()` counts exactly the
live pointers. -/
theorem live_sum {g : Geom} {s : UState} {L : List Nat}
    (hg : GeomOK g) (hInv : UInv g s L) :
    numberOfAllocations g s = L.length := by
  unfold numberOfAllocations
  rw [sum_map_range_congr (fun i hi => hInv.counts_live i hi)]
  apply sum_countP_buckets
  intro p hp
  obtain ⟨h1, h2⟩ := hInv.live_in p hp
  exact arenaOf_lt hg.arenaSize_pos h1 h2


/-- Every valid consumer call preserves the trace invariant. -/
theorem stepOp_inv {g : Geom} {t : Trace} {op : Op} (hg : GeomOK g)
    (hInv : TraceInv g t) (hop : ValidOp op) :
    TraceInv g (stepOp g t op) := by
  obtain ⟨hU, hcnt⟩ := hInv
  cases op with
  | alloc bytes alignment =>
    obtain ⟨ha0, ha, hbw⟩ := hop
    rcases halloc : do_allocate g t.st bytes alignment with ⟨r, s1⟩
    cases r with
    | success p =>
      have hspec := alloc_success_spec hg hU ha0 ha hbw halloc
      simp only [stepOp, halloc]
      exact ⟨hspec.1, by simp; omega⟩
    | nullBytes0 =>
      have hs := alloc_fail_unchanged hg hU ha0 ha hbw halloc
        (by intro p h; simp at h)
      simp only [stepOp, halloc]
      rw [hs]
      exact ⟨hU, hcnt⟩
    | tooLarge nb na =>
      have hs := alloc_fail_unchanged hg hU ha0 ha hbw halloc
        (by intro p h; simp at h)
      simp only [stepOp, halloc]
      rw [hs]
      exact ⟨hU, hcnt⟩
    | exhausted n =>
      have hs := alloc_fail_unchanged hg hU ha0 ha hbw halloc
        (by intro p h; simp at h)
      simp only [stepOp, halloc]
      rw [hs]
      exact ⟨hU, hcnt⟩
  | dealloc i =>
    rcases hgi : t.live.get? i with _ | p
    · simp only [stepOp, hgi]
      exact ⟨hU, hcnt⟩
    · have hi : i < t.live.length := List.get?_eq_some.mp hgi |>.1
      have hpv : t.live.get ⟨i, hi⟩ = p := by
        have := List.get?_eq_some.mp hgi
        obtain ⟨h1, h2⟩ := this
        exact h2
      obtain ⟨s1, hds, hUI⟩ := dealloc_spec hg hU hi
      rw [hpv] at hds
      simp only [stepOp, hgi, hds]
      refine ⟨hUI, ?_⟩
      have hlen : (t.live.eraseIdx i).length = t.live.length - 1 := by
        rw [List.length_eraseIdx]
        simp [hi]
      simp only [hlen]
      omega

/-- The trace invariant holds after any valid call sequence from
construction. -/
theorem runOps_inv {g : Geom} {ops : List Op} (hg : GeomOK g)
    (hops : ∀ op ∈ ops, ValidOp op) : TraceInv g (runOps g ops) := by
  have hinit : TraceInv g (initTrace g) := by
    refine ⟨uinv_init hg, rfl⟩
  unfold runOps
  revert hinit
  generalize initTrace g = t0
  induction ops generalizing t0 with
  | nil => intro h; exact h
  | cons op rest ih =>
    intro h0
    rw [List.foldl_cons]
    apply ih
    · intro o ho
      exact hops o (by simp [ho])
    · exact stepOp_inv hg h0 (hops op (by simp))

/-! ## The synchronized engine: invariant lemmas -/

/-- List form of `take_mem_lt` for reuse across both engines. -/
theorem take_mem_lt_list {l : List Nat} {head N : Nat} (hlen : l.length = N)
    (hhead : head ≤ N) (hlt : ∀ j < head, l.getD j 0 < N) :
    ∀ x ∈ l.take head, x < N := by
  intro x hx
  rw [List.mem_iff_get] at hx
  obtain ⟨⟨j, hj⟩, hval⟩ := hx
  have hjh : j < head := by
    have := hj
    rw [List.length_take] at this
    omega
  have hjfull : j < l.length := by omega
  have : x = l.getD j 0 := by
    rw [← hval, List.get_eq_getElem, List.getElem_take,
      List.getD_eq_getElem?_getD, List.getElem?_eq_getElem hjfull]
    rfl
  rw [this]
  exact hlt j hjh

/-- List form of `take_card`. -/
theorem take_card_list {l : List Nat} {head N : Nat} (hlen : l.length = N)
    (hhead : head ≤ N) (hnodup : (l.take head).Nodup) :
    (l.take head).toFinset.card = head := by
  rw [List.toFinset_card_of_nodup hnodup, List.length_take, hlen]
  omega

/-- List form of `head_lt_of_busy`: a nodup free-list prefix avoiding
both the active arena and one busy arena leaves room. -/
theorem head_lt_busy_list {l : List Nat} {head N active k : Nat}
    (hlen : l.length = N) (hhead : head ≤ N)
    (hlt : ∀ j < head, l.getD j 0 < N) (hnodup : (l.take head).Nodup)
    (hactN : active < N) (hanf : active ∉ l.take head) (hkN : k < N)
    (hka : k ≠ active) (hknf : k ∉ l.take head) : head + 2 ≤ N := by
  have hsub : insert active (insert k (l.take head).toFinset) ⊆
      Finset.range N := by
    intro x hx
    rw [Finset.mem_insert] at hx
    rcases hx with rfl | hx
    · exact Finset.mem_range.mpr hactN
    rw [Finset.mem_insert] at hx
    rcases hx with rfl | hx
    · exact Finset.mem_range.mpr hkN
    · rw [List.mem_toFinset] at hx
      exact Finset.mem_range.mpr (take_mem_lt_list hlen hhead hlt x hx)
  have hcard := Finset.card_le_card hsub
  rw [Finset.card_range] at hcard
  have hkF : k ∉ (l.take head).toFinset := by
    rw [List.mem_toFinset]
    exact hknf
  have haF : active ∉ insert k (l.take head).toFinset := by
    rw [Finset.mem_insert]
    push_neg
    refine ⟨fun hh => hka hh.symm, ?_⟩
    rw [List.mem_toFinset]
    exact hanf
  rw [Finset.card_insert_of_not_mem haF, Finset.card_insert_of_not_mem hkF,
    take_card_list hlen hhead hnodup] at hcard
  omega

/-- Unfolding: the synchronized commit branch. -/
theorem s_details_commit {g : Geom} {s : SState} {bytes : Nat}
    (hfit : ¬ s.bytesReserved + bytes > g.arenaSize) :
    s_allocate_details g s bytes =
      (some s.data,
        { s with bytesReserved := s.bytesReserved + bytes
                 data := (s.data + bytes) % W64
                 allocs := s.allocs.set s.activeArenaId
                   ((s.allocs.getD s.activeArenaId 0 + 1) % W32) }) := by
  rw [s_allocate_details, s_allocate_go.eq_def, if_neg hfit]

/-- Unfolding: synchronized failure with an empty free list. -/
theorem s_details_fail {g : Geom} {s : SState} {bytes : Nat}
    (hnofit : s.bytesReserved + bytes > g.arenaSize)
    (h0 : s.freeListHead = 0) :
    s_allocate_details g s bytes = (none, s) := by
  rw [s_allocate_details, s_allocate_go.eq_def, if_pos hnofit, if_pos h0]

/-- Unfolding: the synchronized retry after reserving the next arena. -/
theorem s_details_retry {g : Geom} {s : SState} {bytes : Nat}
    (hnofit : s.bytesReserved + bytes > g.arenaSize)
    (h0 : s.freeListHead ≠ 0) :
    s_allocate_details g s bytes =
      s_allocate_details g (sReserveArena g s) bytes := by
  obtain ⟨m, hm⟩ : ∃ m, s.freeListHead = m + 1 :=
    ⟨s.freeListHead - 1, by omega⟩
  rw [s_allocate_details, s_allocate_go.eq_def, if_pos hnofit, if_neg h0,
    hm]
  dsimp only
  unfold s_allocate_details
  have h2 : (sReserveArena g s).freeListHead = m := by
    simp [sReserveArena]
    omega
  rw [h2]

/-- The freshly constructed synchronized resource satisfies the
invariant with no live allocations. -/
theorem s_inv_init {g : Geom} (hg : GeomOK g) : SInv g (sInitState g) [] := by
  have hN := hg.numArenas_pos
  have hid : ((List.range g.numArenas).map
      (fun i => g.numArenas - 1 - i)).getD (g.numArenas - 1) 0 = 0 := by
    rw [getD_range_map _ (by omega)]
    omega
  have hdata : (g.base + 0 * g.arenaSize) % W64 = g.base := by
    rw [Nat.zero_mul, Nat.add_zero]
    apply Nat.mod_eq_of_lt
    have := hg.addr_fits
    omega
  have hstate : sInitState g =
      { data := g.base
        bytesReserved := 0
        activeArenaId := 0
        freeListHead := g.numArenas - 1
        freeList := (List.range g.numArenas).map (fun i => g.numArenas - 1 - i)
        allocs := List.replicate g.numArenas 0
        deallocs := List.replicate g.numArenas 0 } := by
    unfold sInitState sReserveArena
    dsimp only
    rw [hid, hdata]
  rw [hstate]
  have hgetD : ∀ j < g.numArenas, ((List.range g.numArenas).map
      (fun i => g.numArenas - 1 - i)).getD j 0 = g.numArenas - 1 - j := by
    intro j hj
    exact getD_range_map _ hj
  have hnodupfull : ((List.range g.numArenas).map
      (fun i => g.numArenas - 1 - i)).Nodup := by
    apply List.Nodup.map_on
    · intro x hx y hy hxy
      rw [List.mem_range] at hx hy
      omega
    · exact List.nodup_range _
  refine ⟨?_, ?_, ?_, ?_, ?_, ?_, ?_, ?_, ?_, ?_, ?_, ?_, ?_, ?_, ?_, ?_,
    ?_, ?_⟩
  all_goals try dsimp only
  · simp
  · simp
  · simp
  · exact hN
  · omega
  · omega
  · simp
  · intro j hj
    rw [hgetD j (by omega)]
    omega
  · exact List.Sublist.nodup (List.take_sublist _ _) hnodupfull
  · intro hmem
    rw [List.mem_iff_get] at hmem
    obtain ⟨⟨j, hj⟩, hval⟩ := hmem
    have hjlen : j < g.numArenas - 1 := by
      have h2 := hj
      rw [List.length_take] at h2
      omega
    have hjfull : j < ((List.range g.numArenas).map
        (fun i => g.numArenas - 1 - i)).length := by
      simp
      omega
    have hfull : ((List.range g.numArenas).map
        (fun i => g.numArenas - 1 - i)).getD j 0 = 0 := by
      rw [List.get_eq_getElem, List.getElem_take] at hval
      rw [List.getD_eq_getElem?_getD, List.getElem?_eq_getElem hjfull,
        hval]
      rfl
    rw [hgetD j (by omega)] at hfull
    omega
  · intro i hi
    rw [getD_replicate 0 hi]
    simp
  · intro j hj
    have hjN : ((List.range g.numArenas).map
        (fun i => g.numArenas - 1 - i)).getD j 0 < g.numArenas := by
      rw [hgetD j (by omega)]
      omega
    rw [getD_replicate 0 hjN]
    exact ⟨rfl, rfl⟩
  · intro p hp
    simp at hp
  · intro i hi
    by_cases h0 : i = 0
    · left
      exact h0
    · right
      left
      have hj : g.numArenas - 1 - i < g.numArenas - 1 := by omega
      have := mem_take_getD ((List.range g.numArenas).map
        (fun i => g.numArenas - 1 - i)) (by simp) hj
      rw [hgetD _ (by omega)] at this
      have heq : g.numArenas - 1 - (g.numArenas - 1 - i) = i := by omega
      rw [heq] at this
      exact this
  · intro hc
    rfl
  · rw [getD_replicate 0 hN]
  · intro i hi
    rw [getD_replicate 0 hi]
    omega

/-- The synchronized `reserveNextArena` (with a non-empty free list)
preserves the invariant provided the abandoned arena is busy; it
activates a fresh arena. -/
theorem s_inv_reserve {g : Geom} {s : SState} {L : List Nat}
    (hg : GeomOK g) (hInv : SInv g s L) (h0 : s.freeListHead ≠ 0)
    (hbusy : s.deallocs.getD s.activeArenaId 0 <
      s.allocs.getD s.activeArenaId 0) :
    SInv g (sReserveArena g s) L ∧
    (sReserveArena g s).bytesReserved = 0 ∧
    (sReserveArena g s).allocs = s.allocs ∧
    (sReserveArena g s).deallocs = s.deallocs ∧
    (sReserveArena g s).freeListHead = s.freeListHead - 1 := by
  have hhead := hInv.head_le
  set id := s.freeList.getD (s.freeListHead - 1) 0 with hiddef
  have hid_lt : id < g.numArenas := hInv.free_lt _ (by omega)
  have hdata : (g.base + id * g.arenaSize) % W64 =
      g.base + id * g.arenaSize := by
    apply Nat.mod_eq_of_lt
    have h1 : id * g.arenaSize ≤ g.numArenas * g.arenaSize :=
      Nat.mul_le_mul_right _ (by omega)
    have := hg.addr_fits
    omega
  have hdecomp : s.freeList.take s.freeListHead =
      s.freeList.take (s.freeListHead - 1) ++ [id] :=
    take_decomp h0 (by rw [hInv.flist_len]; exact hInv.head_le)
  have htail_nodup : (s.freeList.take (s.freeListHead - 1)).Nodup := by
    have := hInv.free_nodup
    rw [hdecomp] at this
    exact (List.nodup_append.mp this).1
  have hid_nottail : id ∉ s.freeList.take (s.freeListHead - 1) := by
    have := hInv.free_nodup
    rw [hdecomp] at this
    have hdisj := (List.nodup_append.mp this).2.2
    intro hmem
    exact hdisj hmem (by simp)
  have hid_zero := hInv.free_zero _ (show s.freeListHead - 1 <
    s.freeListHead by omega)
  rw [← hiddef] at hid_zero
  have hres : sReserveArena g s =
      { s with freeListHead := s.freeListHead - 1
               activeArenaId := id
               data := g.base + id * g.arenaSize
               bytesReserved := 0 } := by
    unfold sReserveArena
    dsimp only
    rw [← hiddef, hdata]
  rw [hres]
  refine ⟨⟨?_, ?_, ?_, ?_, ?_, ?_, ?_, ?_, ?_, ?_, ?_, ?_, ?_, ?_, ?_, ?_,
    ?_, ?_⟩, rfl, rfl, rfl, rfl⟩
  all_goals try dsimp only
  · exact hInv.allocs_len
  · exact hInv.deallocs_len
  · exact hInv.flist_len
  · exact hid_lt
  · omega
  · omega
  · simp
  · intro j hj
    exact hInv.free_lt j (by omega)
  · exact htail_nodup
  · exact hid_nottail
  · exact hInv.live_counts
  · intro j hj
    exact hInv.free_zero j (by omega)
  · exact hInv.live_in
  · intro i hi
    rcases hInv.busy_or i hi with h | h | h
    · right
      right
      rw [h]
      exact hbusy
    · rw [hdecomp] at h
      rcases List.mem_append.mp h with h | h
      · right
        left
        exact h
      · left
        simp at h
        exact h
    · right
      right
      exact h
  · intro hc
    rfl
  · rw [hid_zero.1]
  · exact hInv.allocs_le

/-- A fitting synchronized request commits: the pointer handed out is
the current bump pointer, 16-byte aligned, inside the active arena. -/
theorem s_inv_commit {g : Geom} {s : SState} {L : List Nat} {bytes : Nat}
    (hg : GeomOK g) (hInv : SInv g s L)
    (hb16 : bytes % 16 = 0) (hb1 : 16 ≤ bytes)
    (hfit : ¬ s.bytesReserved + bytes > g.arenaSize) :
    SInv g (s_allocate_details g s bytes).2 (s.data :: L) ∧
    (s_allocate_details g s bytes).1 = some s.data ∧
    s.data % 16 = 0 ∧ g.base ≤ s.data ∧
    s.data < g.base + g.numArenas * g.arenaSize ∧
    arenaOf g s.data = s.activeArenaId := by
  have hSpos := hg.arenaSize_pos
  have hact := hInv.active_lt
  have hdataeq := hInv.data_eq
  have hmulle : (s.activeArenaId + 1) * g.arenaSize ≤
      g.numArenas * g.arenaSize := Nat.mul_le_mul_right _ (by omega)
  have hmulsucc : (s.activeArenaId + 1) * g.arenaSize =
      s.activeArenaId * g.arenaSize + g.arenaSize := by
    rw [Nat.succ_mul]
  have hplow : g.base + g.arenaSize * s.activeArenaId ≤ s.data := by
    rw [hdataeq, Nat.mul_comm]
    omega
  have hphigh : s.data < g.base + g.arenaSize * (s.activeArenaId + 1) := by
    rw [hdataeq, Nat.mul_comm g.arenaSize]
    omega
  have hparena : arenaOf g s.data = s.activeArenaId :=
    arenaOf_eq hSpos hplow hphigh
  have hpltN : s.data < g.base + g.numArenas * g.arenaSize := by
    rw [hdataeq]
    omega
  have hBle : g.base ≤ s.data := by
    rw [hdataeq]
    omega
  have hpmod : s.data % 16 = 0 := by
    rw [hdataeq]
    apply Nat.mod_eq_zero_of_dvd
    have h1 : (16 : Nat) ∣ g.base := Nat.dvd_of_mod_eq_zero hg.base_align
    have h2 : (16 : Nat) ∣ g.arenaSize :=
      Nat.dvd_of_mod_eq_zero hg.arenaSize_align
    have h3 : (16 : Nat) ∣ s.bytesReserved :=
      Nat.dvd_of_mod_eq_zero hInv.reserved_align
    exact Nat.dvd_add (Nat.dvd_add h1 (Dvd.dvd.mul_left h2 _)) h3
  have hdW : s.data + bytes < W64 := by
    have := hg.addr_fits
    rw [hdataeq]
    rw [Nat.mul_comm s.activeArenaId g.arenaSize] at hmulsucc ⊢
    rw [Nat.mul_comm (s.activeArenaId + 1) g.arenaSize] at hmulsucc
    rw [Nat.mul_comm g.numArenas g.arenaSize] at this
    have h4 : g.arenaSize * (s.activeArenaId + 1) ≤
        g.arenaSize * g.numArenas := Nat.mul_le_mul_left _ (by omega)
    omega
  have hdmod : (s.data + bytes) % W64 = s.data + bytes :=
    Nat.mod_eq_of_lt hdW
  set a := s.allocs.getD s.activeArenaId 0 with hadef
  have haS := hInv.allocs_le s.activeArenaId hact
  have haW : (a + 1) % W32 = a + 1 := by
    apply Nat.mod_eq_of_lt
    have := hg.arenaSize_lt
    omega
  have hd_le : s.deallocs.getD s.activeArenaId 0 ≤ a := by
    have := hInv.live_counts s.activeArenaId hact
    omega
  have halen : s.activeArenaId < s.allocs.length := by
    rw [hInv.allocs_len]
    exact hact
  have hfree_ne_act : ∀ j < s.freeListHead,
      s.freeList.getD j 0 ≠ s.activeArenaId := by
    intro j hj hne
    apply hInv.active_notfree
    have := mem_take_getD s.freeList
      (by rw [hInv.flist_len]; exact hInv.head_le) hj
    rw [hne] at this
    exact this
  rw [s_details_commit hfit]
  refine ⟨⟨?_, ?_, ?_, ?_, ?_, ?_, ?_, ?_, ?_, ?_, ?_, ?_, ?_, ?_, ?_, ?_,
    ?_, ?_⟩, rfl, hpmod, hBle, hpltN, hparena⟩
  all_goals try dsimp only
  · rw [List.length_set]
    exact hInv.allocs_len
  · exact hInv.deallocs_len
  · exact hInv.flist_len
  · exact hact
  · exact hInv.head_le
  · omega
  · have hra := hInv.reserved_align
    omega
  · rw [hdmod, hdataeq]
    omega
  · exact hInv.free_lt
  · exact hInv.free_nodup
  · exact hInv.active_notfree
  · intro i hi
    by_cases hieq : i = s.activeArenaId
    · rw [hieq, getD_set_self _ halen, haW, List.countP_cons]
      have hbeq : (arenaOf g s.data == s.activeArenaId) = true := by
        simp [hparena]
      rw [hbeq]
      have hcl := hInv.live_counts s.activeArenaId hact
      rw [← hadef] at hcl
      rw [hcl]
      simp
      omega
    · have hne : s.activeArenaId ≠ i := fun hh => hieq hh.symm
      rw [getD_set_ne _ hne, List.countP_cons]
      have hbeq : (arenaOf g s.data == i) = false := by
        simp [hparena]
        omega
      rw [hbeq]
      rw [hInv.live_counts i hi]
      simp
  · intro j hj
    rw [getD_set_ne _ (fun hh => (hfree_ne_act j hj) hh.symm)]
    exact hInv.free_zero j hj
  · intro q hq
    rcases List.mem_cons.mp hq with h | h
    · rw [h]
      exact ⟨hBle, hpltN⟩
    · exact hInv.live_in q h
  · intro i hi
    by_cases hieq : i = s.activeArenaId
    · left
      exact hieq
    · rcases hInv.busy_or i hi with h | h | h
      · exact absurd h hieq
      · right
        left
        exact h
      · right
        right
        rw [getD_set_ne _ (fun hh => hieq hh.symm)]
        exact h
  · rw [getD_set_self _ halen, haW]
    intro h
    omega
  · rw [getD_set_self _ halen, haW]
    have := hInv.alloc_active
    rw [← hadef] at this
    omega
  · intro i hi
    by_cases hieq : i = s.activeArenaId
    · rw [hieq, getD_set_self _ halen, haW]
      have := hInv.alloc_active
      rw [← hadef] at this
      have hrle := hInv.reserved_le
      omega
    · rw [getD_set_ne _ (fun hh => hieq hh.symm)]
      exact hInv.allocs_le i hi

/-- Behaviour of the synchronized `do_allocate_details` on valid calls
(16-divisible positive size at most the arena size): a null result
leaves the state untouched, a non-null result is a 16-byte-aligned
in-pool pointer with the invariant extended. -/
theorem s_details_spec {g : Geom} {s : SState} {L : List Nat} {bytes : Nat}
    (hg : GeomOK g) (hInv : SInv g s L)
    (hb16 : bytes % 16 = 0) (hb1 : 16 ≤ bytes) (hbS : bytes ≤ g.arenaSize) :
    ((s_allocate_details g s bytes).1 = none →
      (s_allocate_details g s bytes).2 = s) ∧
    (∀ p, (s_allocate_details g s bytes).1 = some p →
      SInv g (s_allocate_details g s bytes).2 (p :: L) ∧
      p % 16 = 0 ∧ g.base ≤ p ∧
      p < g.base + g.numArenas * g.arenaSize) := by
  by_cases hfit : s.bytesReserved + bytes > g.arenaSize
  · by_cases h0 : s.freeListHead = 0
    · rw [s_details_fail hfit h0]
      exact ⟨fun _ => rfl, fun p hp => by simp at hp⟩
    · have hbusy : s.deallocs.getD s.activeArenaId 0 <
          s.allocs.getD s.activeArenaId 0 := by
        have hle : s.deallocs.getD s.activeArenaId 0 ≤
            s.allocs.getD s.activeArenaId 0 := by
          have := hInv.live_counts s.activeArenaId hInv.active_lt
          omega
        rcases Nat.lt_or_ge (s.deallocs.getD s.activeArenaId 0)
          (s.allocs.getD s.activeArenaId 0) with h | h
        · exact h
        · have heqad : s.allocs.getD s.activeArenaId 0 =
              s.deallocs.getD s.activeArenaId 0 := by omega
          have := hInv.active_vacant heqad
          omega
      obtain ⟨hInv1, hres1, _, _, _⟩ := s_inv_reserve hg hInv h0 hbusy
      rw [s_details_retry hfit h0]
      have hfit1 : ¬ (sReserveArena g s).bytesReserved + bytes >
          g.arenaSize := by
        rw [hres1]
        omega
      obtain ⟨hI, hsome, hmod, hle, hlt, _⟩ :=
        s_inv_commit hg hInv1 hb16 hb1 hfit1
      constructor
      · intro hnone
        rw [hsome] at hnone
        simp at hnone
      · intro p hp
        rw [hsome] at hp
        have hpe : (sReserveArena g s).data = p := by
          injection hp
        rw [← hpe]
        exact ⟨hI, hmod, hle, hlt⟩
  · obtain ⟨hI, hsome, hmod, hle, hlt, _⟩ :=
      s_inv_commit hg hInv hb16 hb1 hfit
    constructor
    · intro hnone
      rw [hsome] at hnone
      simp at hnone
    · intro p hp
      rw [hsome] at hp
      have hpe : s.data = p := by
        injection hp
      rw [← hpe]
      exact ⟨hI, hmod, hle, hlt⟩

/-- The rounded bin size of the synchronized `do_allocate`:
`((bytes + 15) / 16) * 16`, the `std::size_t` computation made exact by
`bytes + 16 ≤ 2^64`. -/
theorem s_binned_eq {bytes : Nat} (hb : bytes + 16 ≤ W64) :
    ((bytes + 16 - 1) % W64) / 16 * 16 = (bytes + 15) / 16 * 16 := by
  have h1 : bytes + 16 - 1 = bytes + 15 := by omega
  rw [h1, Nat.mod_eq_of_lt (by omega)]

/-- `s_do_allocate` unfolded for a non-zero request. -/
theorem s_do_allocate_eq {g : Geom} {s : SState} {bytes : Nat}
    (hb : bytes ≠ 0) :
    s_do_allocate g s bytes =
      (if (bytes + 16 - 1) % W64 / 16 * 16 > g.arenaSize then
        (SyncOutcome.nullTooLarge, s)
      else
        match s_allocate_details g s ((bytes + 16 - 1) % W64 / 16 * 16) with
        | (some p, s1) => (SyncOutcome.success p, s1)
        | (none, s1) => (SyncOutcome.exhausted g.numArenas, s1)) := by
  unfold s_do_allocate
  rw [if_neg hb]

/-- A synchronized `do_allocate` that does not return a pointer leaves
the state exactly as it was. -/
theorem s_alloc_fail_unchanged {g : Geom} {s : SState} {L : List Nat}
    {bytes : Nat} {r : SyncOutcome} {s1 : SState}
    (hg : GeomOK g) (hInv : SInv g s L) (hbw : bytes + 16 ≤ W64)
    (heq : s_do_allocate g s bytes = (r, s1))
    (hnp : ∀ p, r ≠ SyncOutcome.success p) : s1 = s := by
  by_cases hb : bytes = 0
  · unfold s_do_allocate at heq
    rw [if_pos hb] at heq
    injection heq with h1 h2
    exact h2.symm
  · rw [s_do_allocate_eq hb] at heq
    set needed := (bytes + 16 - 1) % W64 / 16 * 16 with hneeddef
    have hneq : needed = (bytes + 15) / 16 * 16 := by
      rw [hneeddef, s_binned_eq hbw]
    by_cases hL : needed > g.arenaSize
    · rw [if_pos hL] at heq
      injection heq with h1 h2
      exact h2.symm
    · rw [if_neg hL] at heq
      have h16 : needed % 16 = 0 := by
        rw [hneq]
        simp [Nat.mul_mod_left]
      have h161 : 16 ≤ needed := by
        rw [hneq]
        have : 1 ≤ (bytes + 15) / 16 := by
          apply Nat.le_div_iff_mul_le (by omega) |>.mpr
          omega
        omega
      obtain ⟨hnone, hsome⟩ := s_details_spec hg hInv h16 h161 (by omega)
      rcases hdet : s_allocate_details g s needed with ⟨r1, s2⟩
      rw [hdet] at heq hnone
      rcases r1 with _ | p
      · simp at heq hnone
        rw [heq.2.symm, hnone]
      · simp at heq
        exact absurd heq.1.symm (hnp p)

/-- A successful synchronized `do_allocate` returns a 16-byte-aligned
in-pool pointer and carries the invariant to the extended live list. -/
theorem s_alloc_success_spec {g : Geom} {s : SState} {L : List Nat}
    {bytes p : Nat} {s1 : SState}
    (hg : GeomOK g) (hInv : SInv g s L) (hbw : bytes + 16 ≤ W64)
    (heq : s_do_allocate g s bytes = (SyncOutcome.success p, s1)) :
    SInv g s1 (p :: L) ∧ p % 16 = 0 ∧ g.base ≤ p ∧
    p < g.base + g.numArenas * g.arenaSize := by
  by_cases hb : bytes = 0
  · unfold s_do_allocate at heq
    rw [if_pos hb] at heq
    simp at heq
  · rw [s_do_allocate_eq hb] at heq
    set needed := (bytes + 16 - 1) % W64 / 16 * 16 with hneeddef
    have hneq : needed = (bytes + 15) / 16 * 16 := by
      rw [hneeddef, s_binned_eq hbw]
    by_cases hL : needed > g.arenaSize
    · rw [if_pos hL] at heq
      simp at heq
    · rw [if_neg hL] at heq
      have h16 : needed % 16 = 0 := by
        rw [hneq]
        simp [Nat.mul_mod_left]
      have h161 : 16 ≤ needed := by
        rw [hneq]
        have : 1 ≤ (bytes + 15) / 16 := by
          apply Nat.le_div_iff_mul_le (by omega) |>.mpr
          omega
        omega
      obtain ⟨hnone, hsome⟩ := s_details_spec hg hInv h16 h161 (by omega)
      rcases hdet : s_allocate_details g s needed with ⟨r1, s2⟩
      rw [hdet] at heq hsome
      rcases r1 with _ | q
      · simp at heq
      · simp at heq hsome
        obtain ⟨hq, hs⟩ := heq
        rw [← hq, ← hs]
        exact hsome

/-- Deallocating a live pointer on the synchronized engine never
reports corruption and preserves the invariant with the pointer
retired. -/
theorem s_dealloc_spec {g : Geom} {s : SState} {L : List Nat} {i : Nat}
    (hg : GeomOK g) (hInv : SInv g s L) (hi : i < L.length) :
    ∃ s1, s_do_deallocate g s (L.get ⟨i, hi⟩) = some s1 ∧
      SInv g s1 (L.eraseIdx i) := by
  have hSpos := hg.arenaSize_pos
  set p := L.get ⟨i, hi⟩ with hpdef
  have hp : p ∈ L := get_mem_of_lt hi
  obtain ⟨hBp, hpN⟩ := hInv.live_in p hp
  set k := arenaOf g p with hkdef
  have hkN : k < g.numArenas := arenaOf_lt hSpos hBp hpN
  have hid : deallocArenaId g p = k := deallocArenaId_eq hg hBp hpN
  have hguard : ¬ g.numArenas ≤ deallocArenaId g p := by
    rw [hid]
    omega
  set a := s.allocs.getD k 0 with hadef
  set d := s.deallocs.getD k 0 with hddef
  have hcl := hInv.live_counts k hkN
  have hcp1 : 1 ≤ L.countP (fun q => arenaOf g q == k) := by
    exact countP_pos_of_mem (fun q => arenaOf g q == k) hp (by simp [hkdef])
  have hda1 : d + 1 ≤ a := by omega
  have haW : a < W32 := by
    have h1 := hInv.allocs_le k hkN
    have h2 := hg.arenaSize_lt
    omega
  have hdec : (d + 1) % W32 = d + 1 := Nat.mod_eq_of_lt (by omega)
  have hdlen : k < s.deallocs.length := by
    rw [hInv.deallocs_len]
    exact hkN
  have halen : k < s.allocs.length := by
    rw [hInv.allocs_len]
    exact hkN
  have hcount_k : (L.eraseIdx i).countP (fun q => arenaOf g q == k) + 1 =
      L.countP (fun q => arenaOf g q == k) := by
    apply countP_eraseIdx_true hi
    simp only [← hpdef, ← hkdef]
    simp
  have hcount_j : ∀ j, j ≠ k →
      (L.eraseIdx i).countP (fun q => arenaOf g q == j) =
      L.countP (fun q => arenaOf g q == j) := by
    intro j hj
    apply countP_eraseIdx_false hi
    simp only [← hpdef, ← hkdef]
    simp
    omega
  have hkfree_imp : k ∈ s.freeList.take s.freeListHead → False := by
    intro hmem
    rw [List.mem_iff_get] at hmem
    obtain ⟨⟨j, hj⟩, hval⟩ := hmem
    have hjh : j < s.freeListHead := by
      have := hj
      rw [List.length_take] at this
      omega
    have hjfull : j < s.freeList.length :=
      Nat.lt_of_lt_of_le hjh (by rw [hInv.flist_len]; exact hInv.head_le)
    have hgd : s.freeList.getD j 0 = k := by
      rw [← hval, List.get_eq_getElem, List.getElem_take,
        List.getD_eq_getElem?_getD, List.getElem?_eq_getElem hjfull]
      rfl
    have := (hInv.free_zero j hjh).1
    rw [hgd] at this
    omega
  have hfree_ne_k : ∀ j < s.freeListHead, s.freeList.getD j 0 ≠ k := by
    intro j hj hne
    apply hkfree_imp
    rw [← hne]
    exact mem_take_getD s.freeList
      (by rw [hInv.flist_len]; exact hInv.head_le) hj
  have hL' : ∀ q ∈ L.eraseIdx i, g.base ≤ q ∧
      q < g.base + g.numArenas * g.arenaSize := by
    intro q hq
    exact hInv.live_in q ((List.eraseIdx_sublist L i).subset hq)
  have hgd_d : (s.deallocs.set k (d + 1)).getD k 0 = d + 1 :=
    getD_set_self _ hdlen
  have hgd_dj : ∀ j, j ≠ k →
      (s.deallocs.set k (d + 1)).getD j 0 = s.deallocs.getD j 0 := by
    intro j hj
    rw [getD_set_ne _ (fun hh => hj hh.symm)]
  have hstep : s_do_deallocate g s p = some (
      if a = d + 1 then
        if a = s.allocs.getD k 0 ∧
           a = (s.deallocs.set k (d + 1)).getD k 0 then
          if k = s.activeArenaId then
            sResetActiveArena g
              { s with deallocs := s.deallocs.set k (d + 1) }
          else sReleaseArena g
              { s with deallocs := s.deallocs.set k (d + 1) } k
        else { s with deallocs := s.deallocs.set k (d + 1) }
      else { s with deallocs := s.deallocs.set k (d + 1) }) := by
    have hguard2 : ¬ g.numArenas ≤ k := by omega
    unfold s_do_deallocate
    simp only [hid]
    rw [if_neg hguard2]
    simp only [← hddef, hdec, ← hadef]
  by_cases hvac : a = d + 1
  · have hdc : a = s.allocs.getD k 0 ∧
        a = (s.deallocs.set k (d + 1)).getD k 0 := by
      constructor
      · rw [← hadef]
      · rw [hgd_d]
        exact hvac
    by_cases hka : k = s.activeArenaId
    · rw [hstep, if_pos hvac, if_pos hdc, if_pos hka]
      refine ⟨_, rfl, ?_⟩
      have hdata : (g.base + s.activeArenaId * g.arenaSize) % W64 =
          g.base + s.activeArenaId * g.arenaSize := by
        apply Nat.mod_eq_of_lt
        have h1 : s.activeArenaId * g.arenaSize ≤
            g.numArenas * g.arenaSize :=
          Nat.mul_le_mul_right _ (by have := hInv.active_lt; omega)
        have := hg.addr_fits
        omega
      have hgdA : (s.allocs.set s.activeArenaId 0).getD k 0 = 0 := by
        rw [hka]
        apply getD_set_self
        rw [← hka]
        exact halen
      have hgdAj : ∀ j, j ≠ k →
          (s.allocs.set s.activeArenaId 0).getD j 0 = s.allocs.getD j 0
          := by
        intro j hj
        rw [← hka, getD_set_ne _ (fun hh => hj hh.symm)]
      have hgdD : ((s.deallocs.set k (d + 1)).set s.activeArenaId 0).getD
          k 0 = 0 := by
        rw [hka]
        apply getD_set_self
        rw [List.length_set, ← hka]
        exact hdlen
      have hgdDj : ∀ j, j ≠ k →
          ((s.deallocs.set k (d + 1)).set s.activeArenaId 0).getD j 0 =
          s.deallocs.getD j 0 := by
        intro j hj
        rw [← hka]
        rw [getD_set_ne _ (fun hh => hj hh.symm),
          getD_set_ne _ (fun hh => hj hh.symm)]
      refine ⟨?_, ?_, ?_, ?_, ?_, ?_, ?_, ?_, ?_, ?_, ?_, ?_, ?_, ?_, ?_,
        ?_, ?_, ?_⟩
      all_goals try simp only [sResetActiveArena, hdata]
      · rw [List.length_set]
        exact hInv.allocs_len
      · rw [List.length_set, List.length_set]
        exact hInv.deallocs_len
      · exact hInv.flist_len
      · exact hInv.active_lt
      · exact hInv.head_le
      · exact Nat.zero_le _
      · simp
      · exact hInv.free_lt
      · exact hInv.free_nodup
      · exact hInv.active_notfree
      · intro j hj
        by_cases hjk : j = k
        · rw [hjk, hgdA, hgdD]
          omega
        · rw [hgdAj j hjk, hgdDj j hjk, hcount_j j hjk]
          exact hInv.live_counts j hj
      · intro j hj
        rw [hgdAj _ (hfree_ne_k j hj), hgdDj _ (hfree_ne_k j hj)]
        exact hInv.free_zero j hj
      · exact hL'
      · intro j hj
        by_cases hjk : j = k
        · left
          rw [hjk, hka]
        · rcases hInv.busy_or j hj with h | h | h
          · left
            exact h
          · right
            left
            exact h
          · right
            right
            rw [hgdAj j hjk, hgdDj j hjk]
            exact h
      · intro hcnd
        trivial
      · rw [← hka, getD_set_self _ halen]
      · intro j hj
        by_cases hjk : j = k
        · rw [hjk, hgdA]
          omega
        · rw [hgdAj j hjk]
          exact hInv.allocs_le j hj
    · rw [hstep, if_pos hvac, if_pos hdc, if_neg hka]
      refine ⟨_, rfl, ?_⟩
      have hhead2 : s.freeListHead + 2 ≤ g.numArenas :=
        head_lt_busy_list hInv.flist_len hInv.head_le hInv.free_lt
          hInv.free_nodup hInv.active_lt hInv.active_notfree hkN
          (fun hh => hka hh) hkfree_imp
      have hheadlen : s.freeListHead < s.freeList.length := by
        rw [hInv.flist_len]
        omega
      have hgdA : (s.allocs.set k 0).getD k 0 = 0 := getD_set_self _ halen
      have hgdAj : ∀ j, j ≠ k →
          (s.allocs.set k 0).getD j 0 = s.allocs.getD j 0 := by
        intro j hj
        rw [getD_set_ne _ (fun hh => hj hh.symm)]
      have hgdD : ((s.deallocs.set k (d + 1)).set k 0).getD k 0 = 0 := by
        apply getD_set_self
        rw [List.length_set]
        exact hdlen
      have hgdDj : ∀ j, j ≠ k →
          ((s.deallocs.set k (d + 1)).set k 0).getD j 0 =
          s.deallocs.getD j 0 := by
        intro j hj
        rw [getD_set_ne _ (fun hh => hj hh.symm),
          getD_set_ne _ (fun hh => hj hh.symm)]
      have htake_eq : (s.freeList.set s.freeListHead k).take
          s.freeListHead = s.freeList.take s.freeListHead :=
        take_set_of_le _ (Nat.le_refl _)
      have htake1 : (s.freeList.set s.freeListHead k).take
          (s.freeListHead + 1) =
          s.freeList.take s.freeListHead ++ [k] := by
        rw [take_succ_getD (by rw [List.length_set]; exact hheadlen)]
        rw [htake_eq, getD_set_self _ hheadlen]
      refine ⟨?_, ?_, ?_, ?_, ?_, ?_, ?_, ?_, ?_, ?_, ?_, ?_, ?_, ?_, ?_,
        ?_, ?_, ?_⟩
      all_goals try simp only [sReleaseArena]
      all_goals try dsimp only
      · rw [List.length_set]
        exact hInv.allocs_len
      · rw [List.length_set, List.length_set]
        exact hInv.deallocs_len
      · rw [List.length_set]
        exact hInv.flist_len
      · exact hInv.active_lt
      · omega
      · exact hInv.reserved_le
      · exact hInv.reserved_align
      · exact hInv.data_eq
      · intro j hj
        by_cases hjh : j = s.freeListHead
        · rw [hjh, getD_set_self _ hheadlen]
          exact hkN
        · rw [getD_set_ne _ (fun hh => hjh hh.symm)]
          exact hInv.free_lt j (by omega)
      · rw [htake1, List.nodup_append]
        refine ⟨hInv.free_nodup, List.nodup_singleton k, ?_⟩
        intro x hx hxk
        rw [List.mem_singleton] at hxk
        rw [hxk] at hx
        exact hkfree_imp hx
      · rw [htake1]
        intro hmem
        rcases List.mem_append.mp hmem with h | h
        · exact hInv.active_notfree h
        · rw [List.mem_singleton] at h
          exact hka h.symm
      · intro j hj
        by_cases hjk : j = k
        · rw [hjk, hgdA, hgdD]
          omega
        · rw [hgdAj j hjk, hgdDj j hjk, hcount_j j hjk]
          exact hInv.live_counts j hj
      · intro j hj
        by_cases hjh : j = s.freeListHead
        · rw [hjh, getD_set_self _ hheadlen]
          exact ⟨hgdA, hgdD⟩
        · rw [getD_set_ne _ (fun hh => hjh hh.symm)]
          have hjlt : j < s.freeListHead := by omega
          rw [hgdAj _ (hfree_ne_k j hjlt), hgdDj _ (hfree_ne_k j hjlt)]
          exact hInv.free_zero j hjlt
      · exact hL'
      · intro j hj
        by_cases hjk : j = k
        · right
          left
          rw [htake1, hjk]
          exact List.mem_append_right _ (by simp)
        · rcases hInv.busy_or j hj with h | h | h
          · left
            exact h
          · right
            left
            rw [htake1]
            exact List.mem_append_left _ h
          · right
            right
            rw [hgdAj j hjk, hgdDj j hjk]
            exact h
      · intro hcnd
        rw [hgdAj _ (fun hh => hka hh.symm),
          hgdDj _ (fun hh => hka hh.symm)] at hcnd
        exact hInv.active_vacant hcnd
      · rw [hgdAj _ (fun hh => hka hh.symm)]
        exact hInv.alloc_active
      · intro j hj
        by_cases hjk : j = k
        · rw [hjk, hgdA]
          omega
        · rw [hgdAj j hjk]
          exact hInv.allocs_le j hj
  · rw [hstep, if_neg hvac]
    refine ⟨_, rfl, ?_⟩
    have hgt : d + 1 < a := by omega
    refine ⟨?_, ?_, ?_, ?_, ?_, ?_, ?_, ?_, ?_, ?_, ?_, ?_, ?_, ?_, ?_,
      ?_, ?_, ?_⟩
    all_goals try dsimp only
    · exact hInv.allocs_len
    · rw [List.length_set]
      exact hInv.deallocs_len
    · exact hInv.flist_len
    · exact hInv.active_lt
    · exact hInv.head_le
    · exact hInv.reserved_le
    · exact hInv.reserved_align
    · exact hInv.data_eq
    · exact hInv.free_lt
    · exact hInv.free_nodup
    · exact hInv.active_notfree
    · intro j hj
      by_cases hjk : j = k
      · rw [hjk, hgd_d]
        omega
      · rw [hgd_dj j hjk, hcount_j j hjk]
        exact hInv.live_counts j hj
    · intro j hj
      rw [hgd_dj _ (hfree_ne_k j hj)]
      exact hInv.free_zero j hj
    · exact hL'
    · intro j hj
      by_cases hjk : j = k
      · right
        right
        rw [hjk, hgd_d]
        omega
      · rcases hInv.busy_or j hj with h | h | h
        · left
          exact h
        · right
          left
          exact h
        · right
          right
          rw [hgd_dj j hjk]
          exact h
    · intro hcnd
      by_cases hak : s.activeArenaId = k
      · rw [hak, hgd_d] at hcnd
        omega
      · rw [hgd_dj _ hak] at hcnd
        exact hInv.active_vacant hcnd
    · exact hInv.alloc_active
    · exact hInv.allocs_le

/-- One sequential call against the synchronized engine preserves the
trace invariant. -/
theorem sStepOp_inv {g : Geom} {t : STrace} {op : SOp} (hg : GeomOK g)
    (hInv : STraceInv g t) (hop : ValidSOp op) :
    STraceInv g (sStepOp g t op) := by
  obtain ⟨hU, hcnt⟩ := hInv
  cases op with
  | alloc bytes =>
    have hbw : bytes + 16 ≤ W64 := hop
    rcases halloc : s_do_allocate g t.st bytes with ⟨r, s1⟩
    cases r with
    | success p =>
      have hspec := s_alloc_success_spec hg hU hbw halloc
      simp only [sStepOp, halloc]
      exact ⟨hspec.1, by simp; omega⟩
    | nullBytes0 =>
      have hs := s_alloc_fail_unchanged hg hU hbw halloc
        (by intro p h; simp at h)
      simp only [sStepOp, halloc]
      rw [hs]
      exact ⟨hU, hcnt⟩
    | nullTooLarge =>
      have hs := s_alloc_fail_unchanged hg hU hbw halloc
        (by intro p h; simp at h)
      simp only [sStepOp, halloc]
      rw [hs]
      exact ⟨hU, hcnt⟩
    | exhausted n =>
      have hs := s_alloc_fail_unchanged hg hU hbw halloc
        (by intro p h; simp at h)
      simp only [sStepOp, halloc]
      rw [hs]
      exact ⟨hU, hcnt⟩
  | dealloc i =>
    rcases hgi : t.live.get? i with _ | p
    · simp only [sStepOp, hgi]
      exact ⟨hU, hcnt⟩
    · have hi : i < t.live.length := List.get?_eq_some.mp hgi |>.1
      have hpv : t.live.get ⟨i, hi⟩ = p := by
        have := List.get?_eq_some.mp hgi
        obtain ⟨h1, h2⟩ := this
        exact h2
      obtain ⟨s1, hds, hUI⟩ := s_dealloc_spec hg hU hi
      rw [hpv] at hds
      simp only [sStepOp, hgi, hds]
      refine ⟨hUI, ?_⟩
      have hlen : (t.live.eraseIdx i).length = t.live.length - 1 := by
        rw [List.length_eraseIdx]
        simp [hi]
      simp only [hlen]
      omega

/-- The synchronized trace invariant holds after any valid call sequence
from construction. -/
theorem sRunOps_inv {g : Geom} {ops : List SOp} (hg : GeomOK g)
    (hops : ∀ op ∈ ops, ValidSOp op) : STraceInv g (sRunOps g ops) := by
  have hinit : STraceInv g (sInitTrace g) := by
    refine ⟨s_inv_init hg, rfl⟩
  unfold sRunOps
  revert hinit
  generalize sInitTrace g = t0
  induction ops generalizing t0 with
  | nil => intro h; exact h
  | cons op rest ih =>
    intro h0
    rw [List.foldl_cons]
    apply ih
    · intro o ho
      exact hops o (by simp [ho])
    · exact sStepOp_inv hg h0 (hops op (by simp))

/-! ## Claim C1 -/

/-- Claim C1, counterexample.  On a pool with 3 arenas of 16 bytes and
64-byte-aligned storage (base address 64, as any cache-line-aligned
placement), the sequence allocate(16, 16); allocate(1, 32); then the two
matching deallocates returns the pool to zero live allocations — every
successful allocation is matched — yet `busyArenas()` returns `2`, not
`0`: the 32-byte-aligned request abandoned arena 1 empty but neither
free nor active.  This refutes the claim as stated. -/
theorem claim1_counterexample :
    (runOps ⟨3, 16, 64⟩
      [Op.alloc 16 16, Op.alloc 1 32, Op.dealloc 1, Op.dealloc 0]).live =
        [] ∧
    (runOps ⟨3, 16, 64⟩
      [Op.alloc 16 16, Op.alloc 1 32, Op.dealloc 1, Op.dealloc 0]).nSuccess
        = 2 ∧
    (runOps ⟨3, 16, 64⟩
      [Op.alloc 16 16, Op.alloc 1 32, Op.dealloc 1, Op.dealloc 0]).nDealloc
        = 2 ∧
    numberOfAllocations ⟨3, 16, 64⟩ (runOps ⟨3, 16, 64⟩
      [Op.alloc 16 16, Op.alloc 1 32, Op.dealloc 1, Op.dealloc 0]).st = 0 ∧
    numberOfBusyArenas ⟨3, 16, 64⟩ (runOps ⟨3, 16, 64⟩
      [Op.alloc 16 16, Op.alloc 1 32, Op.dealloc 1, Op.dealloc 0]).st =
        2 := by
  refine ⟨?_, ?_, ?_, ?_, ?_⟩ <;> decide

/-- Claim C1, amended: for every sequence of calls in which each
allocation's alignment is a power of two dividing
`alignof(max_align_t) = 16` and each byte count stays below the
`SizeType` boundary, and on any well-formed geometry, a state with zero
live allocations has `busyArenas() = 0` and `liveAllocations() = 0`. -/
theorem claim1_amended (g : Geom) (ops : List Op) (hg : GeomOK g)
    (hops : ∀ op ∈ ops, ValidOp op)
    (hzero : (runOps g ops).live = []) :
    numberOfBusyArenas g (runOps g ops).st = 0 ∧
    numberOfAllocations g (runOps g ops).st = 0 := by
  obtain ⟨hU, hcnt⟩ := runOps_inv hg hops
  rw [hzero] at hU
  have hN := hg.numArenas_pos
  constructor
  · have hcounts0 : ∀ i < g.numArenas,
        (runOps g ops).st.counts.getD i 0 = 0 := by
      intro i hi
      rw [hU.counts_live i hi]
      simp
    have hfree : ∀ i < g.numArenas, i ≠ (runOps g ops).st.activeArenaId →
        i ∈ (runOps g ops).st.freeList.take (runOps g ops).st.freeListHead
        := by
      intro i hi hne
      rcases hU.busy_or i hi with h | h | h
      · exact absurd h hne
      · exact h
      · rw [hcounts0 i hi] at h
        omega
    have hsub1 : (Finset.range g.numArenas).erase
        (runOps g ops).st.activeArenaId ⊆
        ((runOps g ops).st.freeList.take
          (runOps g ops).st.freeListHead).toFinset := by
      intro x hx
      rw [Finset.mem_erase, Finset.mem_range] at hx
      rw [List.mem_toFinset]
      exact hfree x hx.2 hx.1
    have hsub2 : ((runOps g ops).st.freeList.take
        (runOps g ops).st.freeListHead).toFinset ⊆
        (Finset.range g.numArenas).erase
          (runOps g ops).st.activeArenaId := by
      intro x hx
      rw [List.mem_toFinset] at hx
      rw [Finset.mem_erase, Finset.mem_range]
      refine ⟨?_, take_mem_lt hU x hx⟩
      intro hxa
      rw [hxa] at hx
      exact hU.active_notfree hx
    have hc1 := Finset.card_le_card hsub1
    have hc2 := Finset.card_le_card hsub2
    rw [Finset.card_erase_of_mem (Finset.mem_range.mpr hU.active_lt),
      Finset.card_range, take_card hU] at hc1 hc2
    have hhead : (runOps g ops).st.freeListHead = g.numArenas - 1 := by
      omega
    unfold numberOfBusyArenas
    rw [hhead]
    have hres : g.numArenas - (g.numArenas - 1) = 1 := by omega
    rw [hres, if_pos ⟨rfl, hcounts0 _ hU.active_lt⟩]
  · rw [live_sum hg hU]
    rfl

/-- Claim C1, witness: a 2-arena pool with one allocate/deallocate
round trip ends with zero live allocations, zero busy arenas and zero
live-allocation count. -/
theorem claim1_witness :
    (runOps ⟨2, 16, 64⟩ [Op.alloc 8 8, Op.dealloc 0]).live = [] ∧
    numberOfBusyArenas ⟨2, 16, 64⟩
      (runOps ⟨2, 16, 64⟩ [Op.alloc 8 8, Op.dealloc 0]).st = 0 ∧
    numberOfAllocations ⟨2, 16, 64⟩
      (runOps ⟨2, 16, 64⟩ [Op.alloc 8 8, Op.dealloc 0]).st = 0 := by
  have h := claim1_amended ⟨2, 16, 64⟩ [Op.alloc 8 8, Op.dealloc 0]
    (by decide) (by decide) (by decide)
  exact ⟨by decide, h.1, h.2⟩

/-! ## Claim C2 -/

/-- Claim C2, counterexample.  On a pool with 2 arenas of 16 bytes
(64-byte-aligned storage at 64), after allocate(16, 1) fills arena 0,
the call allocate(1, 32) fails with `OutOfFreeArenas` (PoolExhausted) —
but the failing call has reserved arena 1 on its way: the active arena
id changes from 0 to 1, `freeListHead` drops from 1 to 0 and
`bytesLeft`/`_data` are reset.  The failure is not free of state
mutation, refuting the claim as stated. -/
theorem claim2_counterexample :
    (do_allocate ⟨2, 16, 64⟩
      (do_allocate ⟨2, 16, 64⟩ (initState ⟨2, 16, 64⟩) 16 1).2 1 32).1 =
      AllocOutcome.exhausted 2 ∧
    (do_allocate ⟨2, 16, 64⟩ (initState ⟨2, 16, 64⟩) 16 1).2.activeArenaId
      = 0 ∧
    (do_allocate ⟨2, 16, 64⟩ (initState ⟨2, 16, 64⟩) 16 1).2.freeListHead
      = 1 ∧
    UState.activeArenaId (do_allocate ⟨2, 16, 64⟩
      (do_allocate ⟨2, 16, 64⟩ (initState ⟨2, 16, 64⟩) 16 1).2 1 32).2 =
      1 ∧
    UState.freeListHead (do_allocate ⟨2, 16, 64⟩
      (do_allocate ⟨2, 16, 64⟩ (initState ⟨2, 16, 64⟩) 16 1).2 1 32).2 =
      0 := by
  refine ⟨?_, ?_, ?_, ?_, ?_⟩ <;> decide

/-- Claim C2, amended: for alignments that are powers of two dividing
`alignof(max_align_t) = 16` (and byte counts clear of the `SizeType`
boundary), a failing allocate — `AllocateTooLargeBlock` or
`OutOfFreeArenas` — leaves the engine state completely unchanged, from
any reachable state. -/
theorem claim2_amended (g : Geom) (ops : List Op)
    (bytes alignment : Nat) (r : AllocOutcome) (s1 : UState)
    (hg : GeomOK g) (hops : ∀ op ∈ ops, ValidOp op)
    (ha0 : 0 < alignment) (ha : alignment ∣ 16) (hbw : bytes + 16 ≤ W32)
    (heq : do_allocate g (runOps g ops).st bytes alignment = (r, s1))
    (hfail : r = AllocOutcome.tooLarge bytes g.arenaSize ∨
      r = AllocOutcome.exhausted g.numArenas) :
    s1 = (runOps g ops).st := by
  obtain ⟨hU, _⟩ := runOps_inv hg hops
  apply alloc_fail_unchanged hg hU ha0 ha hbw heq
  intro p hp
  rcases hfail with h | h <;> rw [h] at hp <;> simp at hp

/-- Claim C2, witness: a 100-byte request on a 16-byte-arena pool fails
with `AllocateTooLargeBlock` and leaves the state untouched. -/
theorem claim2_witness :
    (do_allocate ⟨2, 16, 64⟩ (runOps ⟨2, 16, 64⟩ []).st 100 8).2 =
      (runOps ⟨2, 16, 64⟩ []).st :=
  claim2_amended ⟨2, 16, 64⟩ [] 100 8 (AllocOutcome.tooLarge 100 16)
    (do_allocate ⟨2, 16, 64⟩ (runOps ⟨2, 16, 64⟩ []).st 100 8).2
    (by decide) (by decide) (by decide) (by decide) (by decide)
    (by decide) (Or.inl rfl)

/-! ## Claim C3 -/

/-- Claim C3 is contradicted by the code on alignments above
`alignof(max_align_t)`: on a pool with 3 arenas of 16 bytes (storage at
any cache-line-aligned base, here 64), after allocate(16, 16) fills
arena 0, the call allocate(1, 32) has `bytes ≤ S` and a non-empty free
list (head = 2), yet it pops *two* arenas — the bump step is re-entered
twice, because the retry in freshly reserved arena 1 fails again on the
32-byte alignment (needing 32 > 16 bytes) — contradicting both the spec
and the source comment that the recursion can occur only once.  The
call still succeeds in the second popped arena, with `freeListHead`
going from 2 to 0. -/
theorem claim3_bug_eval :
    (do_allocate ⟨3, 16, 64⟩ (initState ⟨3, 16, 64⟩) 16 16).2.freeListHead
      = 2 ∧
    (do_allocate ⟨3, 16, 64⟩
      (do_allocate ⟨3, 16, 64⟩ (initState ⟨3, 16, 64⟩) 16 16).2 1 32).1 =
      AllocOutcome.success 96 ∧
    UState.freeListHead (do_allocate ⟨3, 16, 64⟩
      (do_allocate ⟨3, 16, 64⟩ (initState ⟨3, 16, 64⟩) 16 16).2 1 32).2 =
      0 ∧
    UState.activeArenaId (do_allocate ⟨3, 16, 64⟩
      (do_allocate ⟨3, 16, 64⟩ (initState ⟨3, 16, 64⟩) 16 16).2 1 32).2 =
      2 := by
  refine ⟨?_, ?_, ?_, ?_⟩ <;> decide

/-! ## Claim C6 -/

/-- Claim C6, counterexample.  The claim quantifies over *every*
sequence of operations, including a deallocate of an address never
returned by the pool: on a fresh 1-arena pool, deallocating the storage
base address itself wraps the arena's live counter to `2^32 - 1`, so
`numberOfAllocations()` returns `2^32 - 1` where the claimed identity
(number of successful allocates minus deallocates) would demand
`0 - 1 = -1`. -/
theorem claim6_counterexample :
    (do_deallocate ⟨1, 16, 64⟩ (initState ⟨1, 16, 64⟩) 64).map
      (fun s1 => numberOfAllocations ⟨1, 16, 64⟩ s1) = some (W32 - 1) ∧
    ((W32 - 1 : Nat) : Int) ≠ (0 : Int) - 1 := by
  refine ⟨by decide, by decide⟩

/-- Claim C6, amended: along any properly used trace (deallocations
address live pointers; alignments divide 16; byte counts below the
`SizeType` boundary), `numberOfAllocations()` equals the number of
successful allocates minus the number of deallocates, and an
allocate/deallocate round trip of any single pointer leaves it
unchanged. -/
theorem claim6_amended (g : Geom) (ops : List Op) (hg : GeomOK g)
    (hops : ∀ op ∈ ops, ValidOp op) :
    numberOfAllocations g (runOps g ops).st =
      (runOps g ops).nSuccess - (runOps g ops).nDealloc ∧
    (runOps g ops).nDealloc ≤ (runOps g ops).nSuccess ∧
    (∀ bytes alignment p s1 s2, 0 < alignment → alignment ∣ 16 →
      bytes + 16 ≤ W32 →
      do_allocate g (runOps g ops).st bytes alignment =
        (AllocOutcome.success p, s1) →
      do_deallocate g s1 p = some s2 →
      numberOfAllocations g s2 =
        numberOfAllocations g (runOps g ops).st) := by
  obtain ⟨hU, hcnt⟩ := runOps_inv hg hops
  refine ⟨?_, by omega, ?_⟩
  · rw [live_sum hg hU]
    omega
  · intro bytes alignment p s1 s2 ha0 ha hbw halloc hdeall
    obtain ⟨hU1, _, _, _⟩ := alloc_success_spec hg hU ha0 ha hbw halloc
    have h0 : 0 < (p :: (runOps g ops).live).length := by simp
    obtain ⟨s2x, hds, hU2⟩ := dealloc_spec hg hU1 h0
    have hget : (p :: (runOps g ops).live).get ⟨0, h0⟩ = p := rfl
    rw [hget, hdeall] at hds
    have hs2 : s2x = s2 := by
      injection hds with hh
      exact hh.symm
    rw [← hs2]
    rw [live_sum hg hU2, live_sum hg hU]
    simp

/-- Claim C6, witness: on a fresh 2-arena pool an 8-byte allocation
immediately deallocated leaves `numberOfAllocations()` at its previous
value, and the counting identity holds on a short trace. -/
theorem claim6_witness :
    numberOfAllocations ⟨2, 16, 64⟩
      (runOps ⟨2, 16, 64⟩ [Op.alloc 8 8]).st =
      (runOps ⟨2, 16, 64⟩ [Op.alloc 8 8]).nSuccess -
      (runOps ⟨2, 16, 64⟩ [Op.alloc 8 8]).nDealloc ∧
    numberOfAllocations ⟨2, 16, 64⟩
      ((do_deallocate ⟨2, 16, 64⟩
        (do_allocate ⟨2, 16, 64⟩ (runOps ⟨2, 16, 64⟩ [Op.alloc 8 8]).st
          8 8).2 64).getD (initState ⟨2, 16, 64⟩)) =
      numberOfAllocations ⟨2, 16, 64⟩
        (runOps ⟨2, 16, 64⟩ [Op.alloc 8 8]).st := by
  have h := claim6_amended ⟨2, 16, 64⟩ [Op.alloc 8 8] (by decide)
    (by decide)
  refine ⟨h.1, ?_⟩
  have h3 := h.2.2 8 8 64
    (do_allocate ⟨2, 16, 64⟩ (runOps ⟨2, 16, 64⟩ [Op.alloc 8 8]).st 8 8).2
    ((do_deallocate ⟨2, 16, 64⟩
      (do_allocate ⟨2, 16, 64⟩ (runOps ⟨2, 16, 64⟩ [Op.alloc 8 8]).st
        8 8).2 64).getD (initState ⟨2, 16, 64⟩))
    (by decide) (by decide) (by decide) (by decide) (by decide)
  exact h3

/-! ## Claim C4 -/

/-- Claim C4, counterexample.  The synchronized engine ignores the
requested alignment (`do_allocate(std::size_t bytes, std::size_t)`
discards its second argument and bins by `alignof(max_align_t) = 16`
only).  On a one-arena pool of 32 bytes at base 64, a first 16-byte
allocation followed by a second one — both of which a caller may request
with alignment 32 — returns the pointer 80, and `80 mod 32 = 16 ≠ 0`, so
the claim's `p mod a == 0` fails for the synchronized engine as soon as
`a` exceeds 16. -/
theorem claim4_counterexample :
    (s_do_allocate ⟨1, 32, 64⟩
      ((s_do_allocate ⟨1, 32, 64⟩ (sInitState ⟨1, 32, 64⟩) 16).2) 16).1 =
      SyncOutcome.success 80 ∧ 80 % 32 ≠ 0 := by
  decide

/-- Claim C4, amended.  From any reachable state of either engine
(valid geometry, any valid call sequence from construction): a
successful unsynchronized `allocate(bytes, a)` with `a` a power of two
dividing `alignof(max_align_t) = 16` returns `p` with `p mod a = 0` and
`base ≤ p < base + N*S`; a successful synchronized `allocate` returns
`q` with `q mod 16 = 0` and `base ≤ q < base + N*S` — only the
`alignof(max_align_t)` alignment is honoured there, whatever the caller
requested. -/
theorem claim4_amended (g : Geom) (ops : List Op) (sops : List SOp)
    (bytes alignment p bytes2 q : Nat)
    (hg : GeomOK g)
    (hops : ∀ op ∈ ops, ValidOp op)
    (hsops : ∀ op ∈ sops, ValidSOp op)
    (ha0 : 0 < alignment) (ha : alignment ∣ 16) (hbw : bytes + 16 ≤ W32)
    (hbw2 : bytes2 + 16 ≤ W64)
    (hu : (do_allocate g (runOps g ops).st bytes alignment).1 =
      AllocOutcome.success p)
    (hs : (s_do_allocate g (sRunOps g sops).st bytes2).1 =
      SyncOutcome.success q) :
    (p % alignment = 0 ∧ g.base ≤ p ∧
      p < g.base + g.numArenas * g.arenaSize) ∧
    (q % 16 = 0 ∧ g.base ≤ q ∧
      q < g.base + g.numArenas * g.arenaSize) := by
  have hU := (runOps_inv hg hops).1
  have hueq : do_allocate g (runOps g ops).st bytes alignment =
      (AllocOutcome.success p,
        (do_allocate g (runOps g ops).st bytes alignment).2) := by
    rw [← hu]
  have hspec := alloc_success_spec hg hU ha0 ha hbw hueq
  have hS := (sRunOps_inv hg hsops).1
  have hseq : s_do_allocate g (sRunOps g sops).st bytes2 =
      (SyncOutcome.success q,
        (s_do_allocate g (sRunOps g sops).st bytes2).2) := by
    rw [← hs]
  have hsspec := s_alloc_success_spec hg hS hbw2 hseq
  exact ⟨⟨hspec.2.1, hspec.2.2.1, hspec.2.2.2⟩,
    ⟨hsspec.2.1, hsspec.2.2.1, hsspec.2.2.2⟩⟩

/-- Witness for the amended C4 at a concrete pool: on the two-arena
16-byte pool at base 64, the first unsynchronized `allocate(8, 8)`
returns 72 (8-aligned, in pool) and the first synchronized
`allocate(16)` returns 64 (16-aligned, in pool). -/
theorem claim4_witness :
    (72 % 8 = 0 ∧ 64 ≤ 72 ∧ 72 < 64 + 2 * 16) ∧
    (64 % 16 = 0 ∧ 64 ≤ 64 ∧ 64 < 64 + 2 * 16) := by
  have h := claim4_amended ⟨2, 16, 64⟩ [] [] 8 8 72 16 64
    (by decide) (by simp) (by simp) (by decide) (by decide) (by decide)
    (by decide) (by decide) (by decide)
  simpa using h

/-! ## Claim C5 -/

/-- Claim C5, counterexample.  The code computes the arena id as
`SizeType(ptr - base) / S`: the pointer difference is truncated to
`uint32_t` *before* the division.  On a one-arena 16-byte pool at base
64, the foreign address `64 + 2^32` — far outside the pool, with true
quotient `(ptr - base)/S = 2^28 ≥ N` — truncates to offset `0`, maps to
arena `0`, and `deallocate` raises nothing, refuting both directions of
the claim ("iff the computed id is ≥ N" with the mathematical
difference, and "every address not owned raises PoolCorrupted"). -/
theorem claim5_counterexample :
    1 ≤ ((64 + W32) - 64) / 16 ∧
    (do_deallocate ⟨1, 16, 64⟩ (initState ⟨1, 16, 64⟩)
      (64 + W32)).isSome = true := by
  decide

/-- Claim C5, amended.  On either engine, `PoolCorrupted` is raised iff
`N ≤ SizeType(ptr - base) / S`, where the pointer difference wraps
modulo `2^64` and is truncated modulo `2^32` before the division; in
particular every address `p ≥ base` whose offset `p - base` is below
`2^32` and that lies at or beyond the end of the pool does raise
`PoolCorrupted`.  (Addresses whose offset reaches `2^32` can silently
alias a valid arena, as the counterexample shows.) -/
theorem claim5_amended (g : Geom) (s : UState) (s2 : SState) (p : Nat)
    (hg : GeomOK g) :
    (do_deallocate g s p = none ↔ g.numArenas ≤ deallocArenaId g p) ∧
    (s_do_deallocate g s2 p = none ↔ g.numArenas ≤ deallocArenaId g p) ∧
    (g.base ≤ p → p < W64 → p - g.base < W32 →
      g.base + g.numArenas * g.arenaSize ≤ p →
      do_deallocate g s p = none) := by
  have hiff1 : do_deallocate g s p = none ↔
      g.numArenas ≤ deallocArenaId g p := by
    unfold do_deallocate
    by_cases h : g.numArenas ≤ deallocArenaId g p
    · simp [h]
    · simp [h]
  have hiff2 : s_do_deallocate g s2 p = none ↔
      g.numArenas ≤ deallocArenaId g p := by
    unfold s_do_deallocate
    by_cases h : g.numArenas ≤ deallocArenaId g p
    · simp [h]
    · simp [h]
  refine ⟨hiff1, hiff2, ?_⟩
  intro h1 hpW h2 h3
  rw [hiff1]
  unfold deallocArenaId
  have hbW : g.base % W64 = g.base :=
    Nat.mod_eq_of_lt (by have := hg.addr_fits; omega)
  rw [hbW]
  have hsub : (p + (W64 - g.base)) % W64 = p - g.base := by
    have h4 : p + (W64 - g.base) = (p - g.base) + W64 := by
      have := hg.addr_fits
      omega
    rw [h4, Nat.add_mod_right, Nat.mod_eq_of_lt (by omega)]
  rw [hsub, Nat.mod_eq_of_lt h2]
  rw [Nat.le_div_iff_mul_le hg.arenaSize_pos]
  omega

/-- Witness for the amended C5 on the one-arena 16-byte pool at base 64:
the address 80 sits just past the pool with a small offset, and both
engines report corruption on it. -/
theorem claim5_witness :
    (do_deallocate ⟨1, 16, 64⟩ (initState ⟨1, 16, 64⟩) 80 = none ↔
      1 ≤ deallocArenaId ⟨1, 16, 64⟩ 80) ∧
    (s_do_deallocate ⟨1, 16, 64⟩ (sInitState ⟨1, 16, 64⟩) 80 = none ↔
      1 ≤ deallocArenaId ⟨1, 16, 64⟩ 80) ∧
    do_deallocate ⟨1, 16, 64⟩ (initState ⟨1, 16, 64⟩) 80 = none := by
  have h := claim5_amended ⟨1, 16, 64⟩ (initState ⟨1, 16, 64⟩)
    (sInitState ⟨1, 16, 64⟩) 80 (by decide)
  exact ⟨h.1, h.2.1, h.2.2 (by decide) (by decide) (by decide)
    (by decide)⟩

/-! ## Claim C9 -/

/-- Unfolding of one repetition of `iterDealloc`. -/
theorem iterDealloc_succ (g : Geom) (s : UState) (p k : Nat) :
    iterDealloc g s p (k + 1) =
      match do_deallocate g (iterDealloc g s p k) p with
      | some s1 => s1
      | none => iterDealloc g s p k := rfl

/-- One bogus deallocate on arena 1 of the two-arena pool when its
counter already holds `c ≥ 2`: the counter just steps down to `c - 1`. -/
theorem c9_step (c : Nat) (h1 : 2 ≤ c) (h2 : c < W32) :
    do_deallocate ⟨2, 16, 64⟩
      { initState ⟨2, 16, 64⟩ with counts := [0, c] } 80 =
    some { initState ⟨2, 16, 64⟩ with counts := [0, c - 1] } := by
  have hdec : (c + (W32 - 1)) % W32 = c - 1 := wrap_dec_exact (by omega) h2
  have hid : deallocArenaId ⟨2, 16, 64⟩ 80 = 1 := by decide
  have hgd : ([0, c] : List Nat).getD 1 0 = c := rfl
  have hset : ([0, c] : List Nat).set 1 (c - 1) = [0, c - 1] := rfl
  unfold do_deallocate
  simp only [hid]
  rw [if_neg (by decide)]
  simp only [hgd, hdec, hset]
  rw [if_neg (by omega)]

/-- After `k` bogus deallocates of the address 80 (arena 1, whose live
count starts at 0), for `1 ≤ k ≤ 2^32 - 1`, the pool state is the
initial one except that arena 1's counter reads `2^32 - k`: the counter
wrapped on the first call and has been walking down ever since, and the
arena has not been released (nor can it be while the counter is
nonzero). -/
theorem c9_state : ∀ k, 1 ≤ k → k ≤ W32 - 1 →
    iterDealloc ⟨2, 16, 64⟩ (initState ⟨2, 16, 64⟩) 80 k =
      { initState ⟨2, 16, 64⟩ with counts := [0, W32 - k] } := by
  intro k
  induction k with
  | zero => intro h1 h2; omega
  | succ n ih =>
    intro h1 h2
    by_cases hn : n = 0
    · subst hn
      decide
    · have hni := ih (by omega) (by omega)
      rw [iterDealloc_succ, hni, c9_step (W32 - n) (by omega) (by omega)]
      have hsub : W32 - n - 1 = W32 - (n + 1) := by omega
      rw [hsub]

/-- Claim C9, counterexample to the "never again" tail.  A deallocate on
an arena whose live counter is 0 does wrap it to `2^32 - 1` — but the
counter keeps stepping down on further deallocates, so after exactly
`2^32` bogus deallocates of the address 80 it reaches zero again and
arena 1 IS released: the free list head moves from 1 to 2 and arena 1
appears twice in the free list, contradicting "that arena can never
reach zero again and is never released to the free list". -/
theorem claim9_counterexample :
    (do_deallocate ⟨2, 16, 64⟩ (initState ⟨2, 16, 64⟩) 80).map
      (fun s => s.counts.getD 1 0) = some (W32 - 1) ∧
    (iterDealloc ⟨2, 16, 64⟩ (initState ⟨2, 16, 64⟩) 80 W32).freeListHead
      = 2 ∧
    (iterDealloc ⟨2, 16, 64⟩ (initState ⟨2, 16, 64⟩) 80 W32).freeList
      = [1, 1] := by
  have hform := c9_state (W32 - 1) (by decide) (by decide)
  have h1 : W32 - (W32 - 1) = 1 := by decide
  rw [h1] at hform
  have hiter : iterDealloc ⟨2, 16, 64⟩ (initState ⟨2, 16, 64⟩) 80 W32 =
      { initState ⟨2, 16, 64⟩ with freeListHead := 2, freeList := [1, 1], counts := [0, 0] } := by
    have hW : (W32 : Nat) = (W32 - 1) + 1 := by decide
    rw [hW, iterDealloc_succ, hform]
    have hfin : do_deallocate ⟨2, 16, 64⟩
        { initState ⟨2, 16, 64⟩ with counts := [0, 1] } 80 =
        some { initState ⟨2, 16, 64⟩ with freeListHead := 2, freeList := [1, 1], counts := [0, 0] } := by
      decide
    rw [hfin]
  refine ⟨by decide, ?_, ?_⟩
  · rw [hiter]
  · rw [hiter]

/-- Claim C9, amended.  Any deallocate whose computed (truncated) arena
id falls below `N` raises nothing and decrements that arena's counter
modulo `2^32`; in particular with the counter at 0 it wraps to
`2^32 - 1` and — on that call — nothing is released (the free list and
its head are untouched).  The counter is only erased by the matching
wrap-around back to zero, `2^32` calls later, as the counterexample
shows. -/
theorem claim9_amended (g : Geom) (s : UState) (p : Nat)
    (hid : deallocArenaId g p < g.numArenas)
    (hlen : s.counts.length = g.numArenas) :
    ∃ s1, do_deallocate g s p = some s1 ∧
      s1.counts.getD (deallocArenaId g p) 0 =
        (s.counts.getD (deallocArenaId g p) 0 + (W32 - 1)) % W32 ∧
      (s.counts.getD (deallocArenaId g p) 0 = 0 →
        s1.counts.getD (deallocArenaId g p) 0 = W32 - 1 ∧
        s1.freeListHead = s.freeListHead ∧ s1.freeList = s.freeList) := by
  set k := deallocArenaId g p with hkdef
  have hklen : k < s.counts.length := by omega
  set c := s.counts.getD k 0 with hcdef
  set c1 := (c + (W32 - 1)) % W32 with hc1def
  have hgd : (s.counts.set k c1).getD k 0 = c1 := getD_set_self _ hklen
  have hw0 : c = 0 → c1 = W32 - 1 := by
    intro h0
    rw [hc1def, h0]
    decide
  have hguard : ¬ g.numArenas ≤ k := by omega
  have hstep : do_deallocate g s p = some (
      if c1 = 0 then
        if k = s.activeArenaId then
          resetActiveArena g { s with counts := s.counts.set k c1 }
        else releaseArena g { s with counts := s.counts.set k c1 } k
      else { s with counts := s.counts.set k c1 }) := by
    unfold do_deallocate
    simp only [← hkdef]
    rw [if_neg hguard]
  rw [hstep]
  by_cases hz : c1 = 0
  · rw [if_pos hz]
    by_cases hka : k = s.activeArenaId
    · rw [if_pos hka]
      refine ⟨_, rfl, ?_, ?_⟩
      · show (((s.counts.set k c1).set s.activeArenaId 0).getD k 0) = c1
        rw [← hka]
        rw [getD_set_self _ (by rw [List.length_set]; exact hklen)]
        omega
      · intro h0
        exact absurd (hw0 h0) (by rw [hz]; decide)
    · rw [if_neg hka]
      refine ⟨_, rfl, ?_, ?_⟩
      · show (((s.counts.set k c1).set k 0).getD k 0) = c1
        rw [getD_set_self _ (by rw [List.length_set]; exact hklen)]
        omega
      · intro h0
        exact absurd (hw0 h0) (by rw [hz]; decide)
  · rw [if_neg hz]
    exact ⟨_, rfl, hgd, fun h0 => ⟨by rw [hgd]; exact hw0 h0, rfl, rfl⟩⟩

/-- Witness for the amended C9: the bogus deallocate of address 80 on
the fresh two-arena pool wraps arena 1's counter to `2^32 - 1` without
touching the free list. -/
theorem claim9_witness :
    deallocArenaId ⟨2, 16, 64⟩ 80 < 2 ∧
    (initState ⟨2, 16, 64⟩).counts.length = 2 ∧
    ∃ s1, do_deallocate ⟨2, 16, 64⟩ (initState ⟨2, 16, 64⟩) 80 =
        some s1 ∧
      s1.counts.getD (deallocArenaId ⟨2, 16, 64⟩ 80) 0 =
        ((initState ⟨2, 16, 64⟩).counts.getD
          (deallocArenaId ⟨2, 16, 64⟩ 80) 0 + (W32 - 1)) % W32 ∧
      ((initState ⟨2, 16, 64⟩).counts.getD
          (deallocArenaId ⟨2, 16, 64⟩ 80) 0 = 0 →
        s1.counts.getD (deallocArenaId ⟨2, 16, 64⟩ 80) 0 = W32 - 1 ∧
        s1.freeListHead = (initState ⟨2, 16, 64⟩).freeListHead ∧
        s1.freeList = (initState ⟨2, 16, 64⟩).freeList) := by
  refine ⟨by decide, by decide, ?_⟩
  exact claim9_amended ⟨2, 16, 64⟩ (initState ⟨2, 16, 64⟩) 80
    (by decide) (by decide)

/-! ## Claim C10 -/

/-- Claim C10, confirmed.  `StatisticsArenaResource::do_allocate` calls
the base allocator first and records `_map[p] = bytes` unconditionally
on every non-throwing return: `allocate(0, a)` returns the null
sentinel normally (no exception), leaves the engine untouched, inserts
the entry `(nullptr, 0)` into the tracking map and refreshes
`maxNumberOfAllocations` against the grown map — so from a fresh
resource the map size becomes 1 and `maxNumberOfAllocations` becomes 1
while no live allocation exists. -/
theorem claim10_thm (g : Geom) (t : StatsState) (alignment : Nat) :
    (statsAllocate g t 0 alignment).1 = AllocOutcome.nullBytes0 ∧
    (statsAllocate g t 0 alignment).2.st = t.st ∧
    (statsAllocate g t 0 alignment).2.map = mapAssign t.map 0 0 ∧
    (statsAllocate g t 0 alignment).2.maxNumberOfAllocations =
      max t.maxNumberOfAllocations (mapAssign t.map 0 0).length ∧
    (statsAllocate g (statsInit g) 0 alignment).2.map = [(0, 0)] ∧
    (statsAllocate g (statsInit g) 0 alignment).2.maxNumberOfAllocations
      = 1 ∧
    numberOfAllocations g
      (statsAllocate g (statsInit g) 0 alignment).2.st =
      numberOfAllocations g (initState g) := by
  have h0 : ∀ t0 : StatsState,
      statsAllocate g t0 0 alignment = (.nullBytes0,
        { st := t0.st, map := mapAssign t0.map 0 0
          maxBusyArenas := max t0.maxBusyArenas
            (numberOfBusyArenas g t0.st)
          maxNumberOfAllocations := max t0.maxNumberOfAllocations
            (mapAssign t0.map 0 0).length }) := by
    intro t0
    unfold statsAllocate do_allocate
    simp
  rw [h0 t, h0 (statsInit g)]
  refine ⟨rfl, rfl, rfl, rfl, rfl, rfl, rfl⟩

/-! ## Claim C7 -/

/-- Claim C7: the percentile walk dereferences `std::prev(hist.cbegin())`
— undefined behaviour — whenever `⌊pc * sum⌋ = 0` with `pc > 0`, e.g.
`percentile(0.5)` with a single live allocation: `upperLimit = 0`, the
loop body never runs, and the iterator is stepped before `begin()`.  The
claim instead promises the size of the last included entry (the median,
`8`) and in particular `percentile(0.5) ≤ percentile(1.0)` on every
non-empty map.  The surrounding clauses hold: `p = 0` and the empty map
give 0, `p = 1` gives the largest size, and when `⌊pc·T⌋ ≥ 1` the walk
is well-defined (the median of sizes {8, 8, 24} is 8). -/
theorem claim7_bug_eval :
    percentile [(64, 8)] (1/2) = none ∧
    percentile [(64, 8)] 1 = some 8 ∧
    percentile [] (1/2) = some 0 ∧
    percentile [(64, 8)] 0 = some 0 ∧
    percentile [(64, 8), (72, 8), (96, 24)] (1/2) = some 8 := by
  refine ⟨?_, ?_, ?_, ?_, ?_⟩
  · simp only [percentile]
    have h1 : max 0 (min 1 (1/2 : ℚ)) = 1/2 := by norm_num
    rw [h1, if_neg (by norm_num : ¬ (1/2 : ℚ) = 0)]
    have h2 : histogram [(64, 8)] = [(8, 1)] := rfl
    rw [h2]
    have h3 : (([(8, 1)] : List (Nat × Nat)).map (fun kv => kv.2)).sum
        = 1 := rfl
    rw [h3]
    rw [if_neg (by norm_num : ¬ (1 : Nat) = 0)]
    have h4 : (⌊(1/2 : ℚ) * ((1 : Nat) : ℚ)⌋).toNat = 0 := by norm_num
    rw [h4]
    decide
  · simp only [percentile]
    have h1 : max 0 (min 1 (1 : ℚ)) = 1 := by norm_num
    rw [h1, if_neg (by norm_num : ¬ (1 : ℚ) = 0)]
    have h2 : histogram [(64, 8)] = [(8, 1)] := rfl
    rw [h2]
    have h3 : (([(8, 1)] : List (Nat × Nat)).map (fun kv => kv.2)).sum
        = 1 := rfl
    rw [h3]
    rw [if_neg (by norm_num : ¬ (1 : Nat) = 0)]
    have h4 : (⌊(1 : ℚ) * ((1 : Nat) : ℚ)⌋).toNat = 1 := by norm_num
    rw [h4]
    decide
  · simp only [percentile]
    have h1 : max 0 (min 1 (1/2 : ℚ)) = 1/2 := by norm_num
    rw [h1, if_neg (by norm_num : ¬ (1/2 : ℚ) = 0)]
    rfl
  · simp only [percentile]
    have h1 : max 0 (min 1 (0 : ℚ)) = 0 := by norm_num
    rw [h1]
    simp
  · simp only [percentile]
    have h1 : max 0 (min 1 (1/2 : ℚ)) = 1/2 := by norm_num
    rw [h1, if_neg (by norm_num : ¬ (1/2 : ℚ) = 0)]
    have h2 : histogram [(64, 8), (72, 8), (96, 24)] = [(8, 2), (24, 1)]
        := rfl
    rw [h2]
    have h3 : (([(8, 2), (24, 1)] : List (Nat × Nat)).map
        (fun kv => kv.2)).sum = 3 := rfl
    rw [h3]
    rw [if_neg (by norm_num : ¬ (3 : Nat) = 0)]
    have h4 : (⌊(1/2 : ℚ) * ((3 : Nat) : ℚ)⌋).toNat = 1 := by norm_num
    rw [h4]
    decide

end MultiArena
